import Mathlib

/-!
Verification of the moment-extraction pipeline of `nio-transcribe`.

The development shallowly embeds the Python source under `src/` into Lean:
  * `src/extraction.py`   — `parse_moment_response` and its helpers,
  * `src/llm_client.py`   — chunking, per-chunk processing and orchestration,
  * `src/cache_utils.py`  — the flat-file moment cache,
  * `src/export_utils.py` — the ffmpeg JSON export.

Python values produced by `json.loads` are modelled by the inductive type
`Json`; Python dicts are insertion-ordered association lists; code that can
raise is modelled in `Except String`; the remote LLM call, the uuid supply
and the md5 hexdigest are modelled as explicit function parameters.
-/

set_option maxHeartbeats 1000000

namespace NioTranscribe

/-- A JSON value as produced by Python's `json.loads`.  Numbers are modelled
as exact rationals (IEEE doubles are treated as exact decimal values, which
agrees with the Python code for the magnitudes the pipeline handles).
Objects are insertion-ordered association lists, as CPython dicts are. -/
inductive Json where
  | null
  | bool (b : Bool)
  | num (q : ℚ)
  | str (s : String)
  | arr (elems : List Json)
  | obj (fields : List (String × Json))
  deriving Repr, Inhabited

namespace Json

/-- Python `d[k]` / `d.get(k)` on a dict: first binding for the key
(after parsing there is at most one binding per key). -/
def get : Json → String → Option Json
  | .obj fields, k => fields.lookup k
  | _, _ => none

/-- Python `d.get(k, default)`. -/
def getD (j : Json) (k : String) (d : Json) : Json :=
  (j.get k).getD d

/-- Python `k in d`. -/
def hasKey (j : Json) (k : String) : Bool :=
  (j.get k).isSome

/-- Update-or-append on an insertion-ordered association list: a present key
keeps its position and gets the new value, an absent key is appended.  This is
CPython's `d[k] = v`. -/
def setKey : List (String × Json) → String → Json → List (String × Json)
  | [], k, v => [(k, v)]
  | (k', v') :: rest, k, v =>
    if k' = k then (k', v) :: rest else (k', v') :: setKey rest k v

/-- Python `d[k] = v` on an object (no-op on non-objects; the embedding only
applies it to objects). -/
def set : Json → String → Json → Json
  | .obj fields, k, v => .obj (setKey fields k v)
  | j, _, _ => j

/-- Python `d.setdefault(k, v)`: insert only when the key is absent
(regardless of the truthiness of a present value). -/
def setdefault (j : Json) (k : String) (v : Json) : Json :=
  if j.hasKey k then j else j.set k v

/-- Is the value a Python dict? -/
def isObj : Json → Bool
  | .obj _ => true
  | _ => false

/-- Python truthiness of a value decoded from JSON. -/
def truthy : Json → Bool
  | .null => false
  | .bool b => b
  | .num q => q ≠ 0
  | .str s => s ≠ ""
  | .arr elems => ¬ elems.isEmpty
  | .obj fields => ¬ fields.isEmpty

end Json

/-! ### Python string primitives

The Python `str` methods used by the pipeline, modelled over `List Char` /
`String`.  Python's whitespace set for `str.strip` and no-argument
`str.split` is `' '`, `'\t'`, `'\n'`, `'\r'`, `'\x0b'`, `'\x0c'`. -/

/-- Characters stripped by Python `str.strip()` and separating words in
`str.split()`. -/
def pyWs (c : Char) : Bool :=
  c = ' ' ∨ c = '\t' ∨ c = '\n' ∨ c = '\r' ∨ c = '\x0b' ∨ c = '\x0c'

/-- Strip trailing Python whitespace from a character list. -/
def stripRight (l : List Char) : List Char :=
  (l.reverse.dropWhile pyWs).reverse

/-- Python `str.strip()` on a character list. -/
def pyStripL (l : List Char) : List Char :=
  stripRight (l.dropWhile pyWs)

/-- Python `str.strip()`. -/
def pyStrip (s : String) : String :=
  String.mk (pyStripL s.data)

/-- Flush helper for `pyWordsAux`: the accumulator holds the current word
reversed. -/
def flushWord (acc : List Char) (ws : List String) : List String :=
  if acc.isEmpty then ws else ws ++ [String.mk acc.reverse]

/-- Worker for Python `str.split()` (no argument): split on runs of
whitespace, discarding empty fields. -/
def pyWordsAux : List Char → List Char → List String → List String
  | [], acc, ws => flushWord acc ws
  | c :: rest, acc, ws =>
    if pyWs c then pyWordsAux rest [] (flushWord acc ws)
    else pyWordsAux rest (c :: acc) ws

/-- Python `str.split()` with no argument. -/
def pyWords (s : String) : List String :=
  pyWordsAux s.data [] []

/-- Line-break characters recognised by Python `str.splitlines` (the
characters the pipeline can meet; `\r\n` is handled as one break). -/
def pyLineBreak (c : Char) : Bool :=
  c = '\n' ∨ c = '\r' ∨ c = '\x0b' ∨ c = '\x0c' ∨
  c = '\x1c' ∨ c = '\x1d' ∨ c = '\x1e' ∨ c = '\x85' ∨
  c = '\u2028' ∨ c = '\u2029'

/-- Worker for Python `str.splitlines()`; the accumulator holds the current
line reversed. -/
def pySplitlinesAux : List Char → List Char → List String
  | [], acc => if acc.isEmpty then [] else [String.mk acc.reverse]
  | '\r' :: '\n' :: rest, acc => String.mk acc.reverse :: pySplitlinesAux rest []
  | c :: rest, acc =>
    if pyLineBreak c then String.mk acc.reverse :: pySplitlinesAux rest []
    else pySplitlinesAux rest (c :: acc)

/-- Python `str.splitlines()`. -/
def pySplitlines (s : String) : List String :=
  pySplitlinesAux s.data []

/-- Python `int(s)` on a string: optional surrounding whitespace, an optional
sign, then one or more decimal digits (digit-group underscores are not
modelled).  `none` models the `ValueError` that the callers catch. -/
def pyIntOfChars (l : List Char) : Option Int :=
  let l := pyStripL l
  let core : List Char → Option Nat := fun ds =>
    if ds.isEmpty then none
    else if ds.all Char.isDigit then
      some (ds.foldl (fun n c => n * 10 + (c.toNat - '0'.toNat)) 0)
    else none
  match l with
  | '-' :: rest => (core rest).map fun n => -(n : Int)
  | '+' :: rest => (core rest).map fun n => (n : Int)
  | _ => (core l).map fun n => (n : Int)

/-- Python `int(s)` on a string. -/
def pyIntOfString (s : String) : Option Int :=
  pyIntOfChars s.data

/-- Truncation toward zero, as Python `int(float)` (core `Rat.floor`/`ceil`
keep the definition kernel-evaluable). -/
def ratTrunc (q : ℚ) : Int :=
  if q ≥ 0 then q.floor else q.ceil

/-- Python `int(x)` on a value decoded from JSON; `none` models the raised
`TypeError`/`ValueError` that the callers catch. -/
def pyToInt : Json → Option Int
  | .bool b => some (if b then 1 else 0)
  | .num q => some (ratTrunc q)
  | .str s => pyIntOfString s
  | _ => none

/-! Rational arithmetic built on `mkRat`, so that concrete runs of the
embedding reduce inside the kernel (the `ℚ` field operations do not); the
next lemmas identify the helpers with the field operations. -/

/-- An integer as a rational. -/
def intQ (x : Int) : ℚ := mkRat x 1

/-- Addition on `ℚ` via `mkRat`. -/
def qAdd (a b : ℚ) : ℚ := mkRat (a.num * b.den + b.num * a.den) (a.den * b.den)

/-- Multiplication by a natural via `mkRat`. -/
def qMulNat (a : ℚ) (n : Nat) : ℚ := mkRat (a.num * n) a.den

/-- Division by a natural via `mkRat`. -/
def qDivNat (a : ℚ) (n : Nat) : ℚ := mkRat a.num (a.den * n)

theorem intQ_eq (x : Int) : intQ x = (x : ℚ) := Rat.mkRat_one ..

theorem qAdd_eq (a b : ℚ) : qAdd a b = a + b := by
  rw [qAdd, Rat.mkRat_eq_div]
  push_cast
  rw [div_eq_iff (by positivity)]
  calc (a.num : ℚ) * b.den + b.num * a.den
      = ((a.num : ℚ) / a.den + (b.num : ℚ) / b.den) * (a.den * b.den) := by
        field_simp
    _ = (a + b) * (a.den * b.den) := by rw [Rat.num_div_den, Rat.num_div_den]

theorem qMulNat_eq (a : ℚ) (n : Nat) : qMulNat a n = a * n := by
  rw [qMulNat, Rat.mkRat_eq_div]
  push_cast
  rw [div_eq_iff (by positivity)]
  calc (a.num : ℚ) * n = ((a.num : ℚ) / a.den) * n * a.den := by
        field_simp
    _ = a * n * a.den := by rw [Rat.num_div_den]

theorem qDivNat_eq (a : ℚ) (n : Nat) (hn : n ≠ 0) : qDivNat a n = a / n := by
  have hn' : (n : ℚ) ≠ 0 := Nat.cast_ne_zero.mpr hn
  rw [qDivNat, Rat.mkRat_eq_div]
  push_cast
  rw [div_eq_iff (mul_ne_zero (by positivity) hn')]
  calc (a.num : ℚ) = ((a.num : ℚ) / a.den) * a.den := by field_simp
    _ = a * a.den := by rw [Rat.num_div_den]
    _ = a / n * (a.den * n) := by
        rw [mul_comm ((a.den : ℚ)) ((n : ℚ)), ← mul_assoc, div_mul_cancel₀ _ hn']

/-! ### `json.loads`

A recursive-descent decoder for the JSON documents the pipeline exchanges.
It models Python's `json.loads` (strict grammar; `NaN`/`Infinity` extensions
and surrogate-pair recombination are not modelled).  `none` models the
`json.JSONDecodeError` that `try_load_json` catches. -/

/-- JSON inter-token whitespace. -/
def jsonWs (c : Char) : Bool :=
  c = ' ' ∨ c = '\t' ∨ c = '\n' ∨ c = '\r'

/-- Skip JSON whitespace. -/
def skipWs (l : List Char) : List Char :=
  l.dropWhile jsonWs

/-- Value of a hexadecimal digit. -/
def hexVal (c : Char) : Option Nat :=
  if '0' ≤ c ∧ c ≤ '9' then some (c.toNat - '0'.toNat)
  else if 'a' ≤ c ∧ c ≤ 'f' then some (c.toNat - 'a'.toNat + 10)
  else if 'A' ≤ c ∧ c ≤ 'F' then some (c.toNat - 'A'.toNat + 10)
  else none

/-- Decoded character for a single-character JSON escape. -/
def escChar : Char → Option Char
  | '"' => some '"'
  | '\\' => some '\\'
  | '/' => some '/'
  | 'b' => some '\x08'
  | 'f' => some '\x0c'
  | 'n' => some '\n'
  | 'r' => some '\r'
  | 't' => some '\t'
  | _ => none

/-- Decode the body of a JSON string literal (the opening quote already
consumed); the accumulator holds the decoded text reversed. -/
def pStrAux : List Char → List Char → Option (String × List Char)
  | [], _ => none
  | '"' :: rest, acc => some (String.mk acc.reverse, rest)
  | '\\' :: 'u' :: h1 :: h2 :: h3 :: h4 :: rest, acc =>
    match hexVal h1, hexVal h2, hexVal h3, hexVal h4 with
    | some a, some b, some c, some d =>
      pStrAux rest (Char.ofNat (((a * 16 + b) * 16 + c) * 16 + d) :: acc)
    | _, _, _, _ => none
  | '\\' :: e :: rest, acc =>
    match escChar e with
    | some c => pStrAux rest (c :: acc)
    | none => none
  | c :: rest, acc =>
    if c.toNat < 32 then none else pStrAux rest (c :: acc)

/-- Numeric value of a list of decimal digits. -/
def digitsVal (ds : List Char) : Nat :=
  ds.foldl (fun n c => n * 10 + (c.toNat - '0'.toNat)) 0

/-- A rational from integer mantissa and decimal exponent (built with
`mkRat` so that the kernel can evaluate it). -/
def decScale (m : Int) (e : Int) : ℚ :=
  if e ≥ 0 then mkRat (m * ((10 : Nat) ^ e.toNat : Nat)) 1
  else mkRat m ((10 : Nat) ^ (-e).toNat)

/-- Decode a JSON number (grammar `-? int frac? exp?` with no leading
zeros). -/
def pNum (l : List Char) : Option (ℚ × List Char) :=
  let (sign, l₁) : Int × List Char :=
    match l with
    | '-' :: rest => (-1, rest)
    | _ => (1, l)
  let intDigits := l₁.takeWhile Char.isDigit
  let l₂ := l₁.dropWhile Char.isDigit
  if intDigits.isEmpty then none
  else if intDigits.length > 1 ∧ intDigits.headD '0' = '0' then none
  else
    let (fracDigits, l₃) : List Char × List Char :=
      match l₂ with
      | '.' :: rest => (rest.takeWhile Char.isDigit, rest.dropWhile Char.isDigit)
      | _ => ([], l₂)
    if l₂ ≠ l₃ ∧ fracDigits.isEmpty then none
    else
      let expPart : Option (Int × List Char) :=
        match l₃ with
        | 'e' :: rest | 'E' :: rest =>
          let (esign, r₁) : Int × List Char :=
            match rest with
            | '+' :: r => (1, r)
            | '-' :: r => (-1, r)
            | _ => (1, rest)
          let eds := r₁.takeWhile Char.isDigit
          if eds.isEmpty then none
          else some (esign * (digitsVal eds : Int), r₁.dropWhile Char.isDigit)
        | _ => some (0, l₃)
      match expPart with
      | none => none
      | some (e, l₄) =>
        let mant : Int := sign * (digitsVal (intDigits ++ fracDigits) : Int)
        some (decScale mant (e - (fracDigits.length : Int)), l₄)

mutual

/-- Decode one JSON value; the fuel bounds recursion depth and is set to the
input length plus one, which suffices because every nesting level consumes at
least one character. -/
def pVal : Nat → List Char → Option (Json × List Char)
  | 0, _ => none
  | fuel + 1, l =>
    match skipWs l with
    | 'n' :: 'u' :: 'l' :: 'l' :: rest => some (.null, rest)
    | 't' :: 'r' :: 'u' :: 'e' :: rest => some (.bool true, rest)
    | 'f' :: 'a' :: 'l' :: 's' :: 'e' :: rest => some (.bool false, rest)
    | '"' :: rest => (pStrAux rest []).map fun (s, r) => (.str s, r)
    | '[' :: rest =>
      (match skipWs rest with
       | ']' :: r => some (.arr [], r)
       | _ => (pItems fuel rest []).map fun (xs, r) => (.arr xs, r))
    | '{' :: rest =>
      (match skipWs rest with
       | '}' :: r => some (.obj [], r)
       | _ => (pFields fuel rest []).map fun (fs, r) => (.obj fs, r))
    | l' => (pNum l').map fun (q, r) => (.num q, r)

/-- Decode the elements of a non-empty JSON array (after `[`); the
accumulator holds decoded elements reversed. -/
def pItems : Nat → List Char → List Json → Option (List Json × List Char)
  | 0, _, _ => none
  | fuel + 1, l, acc =>
    match pVal fuel l with
    | none => none
    | some (v, r) =>
      match skipWs r with
      | ',' :: r' => pItems fuel r' (v :: acc)
      | ']' :: r' => some ((v :: acc).reverse, r')
      | _ => none

/-- Decode the members of a non-empty JSON object (after `{`); duplicate keys
overwrite in place, as when CPython builds the dict. -/
def pFields : Nat → List Char → List (String × Json) →
    Option (List (String × Json) × List Char)
  | 0, _, _ => none
  | fuel + 1, l, acc =>
    match skipWs l with
    | '"' :: rest =>
      match pStrAux rest [] with
      | none => none
      | some (k, r) =>
        match skipWs r with
        | ':' :: r' =>
          match pVal fuel r' with
          | none => none
          | some (v, r'') =>
            match skipWs r'' with
            | ',' :: r''' => pFields fuel r''' (Json.setKey acc k v)
            | '}' :: r''' => some (Json.setKey acc k v, r''')
            | _ => none
        | _ => none
    | _ => none

end

/-- Model of Python `json.loads`: decode a complete document, allowing only
trailing whitespace. -/
def Json.parse (s : String) : Option Json :=
  match pVal (s.data.length + 1) s.data with
  | some (v, rest) => if (skipWs rest).isEmpty then some v else none
  | none => none

/-! ### `src/extraction.py` -/

/-- Does the list start with the given pattern? -/
def startsWithL (p l : List Char) : Bool :=
  l.take p.length = p

/-- Does the list end with the given pattern? -/
def endsWithL (p l : List Char) : Bool :=
  l.reverse.take p.length = p.reverse

/-- Python `str.find` for a single character: index of the first occurrence,
`none` for Python's `-1`. -/
def findIdx (c : Char) : List Char → Option Nat
  | [] => none
  | x :: rest => if x = c then some 0 else (findIdx c rest).map (· + 1)

/-- The backtick fence marker. -/
def ticks : List Char := ['`', '`', '`']

/-- `strip_code_fences` from `parse_moment_response`: strip, drop a leading
fence line (up to the first newline) when the text starts with three
backticks, drop a trailing triple backtick, strip again. -/
def strip_code_fences (text : String) : String :=
  let t := pyStripL text.data
  let t :=
    if startsWithL ticks t then
      let t :=
        match findIdx '\n' t with
        | some i => t.drop (i + 1)
        | none => t
      if endsWithL ticks t then t.take (t.length - 3) else t
    else t
  String.mk (pyStripL t)

/-- The substring matched by `re.search(r"\x7b[\s\S]*\x7d", s)` and its
bracket analogue: from the first opening delimiter to the last closing
delimiter after it (greedy match). -/
def extractDelim (lc rc : Char) (l : List Char) : Option (List Char) :=
  match l.dropWhile (· ≠ lc) with
  | [] => none
  | x :: rest =>
    match (x :: rest).reverse.dropWhile (· ≠ rc) with
    | [] => none
    | y :: revRest => some ((y :: revRest).reverse)

/-- Step 3 of `parse_moment_response`: the brace-delimited candidate when one
exists, else the bracket-delimited candidate. -/
def extractCandidate (clean : String) : Option String :=
  match extractDelim '{' '}' clean.data with
  | some c => some (String.mk c)
  | none => (extractDelim '[' ']' clean.data).map String.mk

/-- Steps 2–3 of `parse_moment_response`: direct parse of the cleaned text,
then parse of the extracted candidate substring. -/
def parsedData (clean : String) : Option Json :=
  match Json.parse clean with
  | some d => some d
  | none =>
    match extractCandidate clean with
    | some cand => Json.parse cand
    | none => none

/-- Python `for x in v`: lists yield elements, strings yield one-character
strings, dicts yield their keys; other values raise `TypeError`. -/
def toIterable : Json → Except String (List Json)
  | .arr elems => .ok elems
  | .str s => .ok (s.data.map fun c => .str (String.mk [c]))
  | .obj fields => .ok (fields.map fun kv => .str kv.1)
  | _ => .error "TypeError: object is not iterable"

/-- Step 4 of `parse_moment_response`: normalize the parsed root to the list
of raw moment candidates (`moments`).  A bare list is the moments list; an
object exposes `moments`, falling back to a singleton when the object itself
looks like a moment; any other root yields an empty list.  Iterating a
non-iterable `moments` value raises. -/
def momentsOfRoot (data : Json) : Except String (List Json) :=
  match data with
  | .arr elems => .ok elems
  | .obj _ =>
    let moments := data.getD "moments" (.arr [])
    let moments :=
      if ¬ moments.truthy ∧ (data.hasKey "quote" ∨ data.hasKey "timestamps") then
        Json.arr [data]
      else moments
    toIterable moments
  | _ => .ok []

/-- The six fixed persona-caption keys. -/
def personaKeys : List String :=
  ["historian", "thomist", "ex_protestant", "meme_catholic",
   "old_world_catholic", "catholic"]

/-- `int(word_count / 2.6)`: for word counts below `10^14` the
double-precision division truncates to `⌊10·wc/26⌋`, which is how the
word-rate floor is modelled. -/
def wordBasedDuration (wc : Nat) : Int :=
  if wc > 0 then ((wc * 10) / 26 : Nat) else 0

/-- `int(llm_duration) if llm_duration else 0` inside `try`/`except`:
the model estimate as an integer, `0` for an absent, falsy or inconvertible
value. -/
def modelEstimate (m : Json) : Int :=
  let v := m.getD "clip_duration_seconds" (.num 0)
  if v.truthy then (pyToInt v).getD 0 else 0

/-- Modelled from the spec's words for C4 ("`E` treated as 0 when absent or
non-numeric"): the model-provided estimate as an integer, `0` when the field
is absent or when Python's `int()` conversion fails.  Compared below with
the code's `modelEstimate`. -/
def specEstimate (m : Json) : Int :=
  match m.get "clip_duration_seconds" with
  | none => 0
  | some v => (pyToInt v).getD 0

/-- One `persona_captions.setdefault(key, "")` step of the enrichment
loop. -/
def pcSetdefault (fs : List (String × Json)) (k : String) : List (String × Json) :=
  if (fs.lookup k).isSome then fs else Json.setKey fs k (.str "")

/-- Step 5 of `parse_moment_response`, one loop iteration: skip non-dict
candidates and candidates without a truthy `quote`, default `timestamps`,
recompute `clip_duration_seconds`, backfill the optional fields and the six
persona-caption keys.  `mid` is this iteration's fresh `uuid4` prefix.
Errors model the `AttributeError`s raised on a truthy non-string `quote`
(`quote.split()`) and a non-dict `persona_captions` (`.setdefault`). -/
def processMoment (mid : String) (m : Json) : Except String (Option Json) :=
  if ¬ m.isObj then .ok none
  else
    let m := m.set "id" (.str mid)
    if ¬ (m.getD "quote" .null).truthy then .ok none
    else
      let m :=
        if ¬ (m.getD "timestamps" .null).truthy then
          m.setdefault "timestamps" (.str "")
        else m
      let quote := m.getD "quote" (.str "")
      let wordCount? : Except String Nat :=
        if quote.truthy then
          match quote with
          | .str s => .ok (pyWords s).length
          | _ => .error "AttributeError: split"
        else .ok 0
      match wordCount? with
      | .error e => .error e
      | .ok wordCount =>
        let llmDuration : Int := modelEstimate m
        let m := m.set "clip_duration_seconds"
          (.num (intQ (max llmDuration (wordBasedDuration wordCount))))
        let m := m.setdefault "viral_trigger" (.str "")
        let m := m.setdefault "why_it_hits" (.str "")
        let m := m.setdefault "energy_tag" (.str "")
        let m := m.setdefault "flags" (.arr [])
        let m := m.setdefault "persona_captions" (.obj [])
        match m.get "persona_captions" with
        | some (.obj pcs) =>
          let pcs := personaKeys.foldl pcSetdefault pcs
          .ok (some (m.set "persona_captions" (.obj pcs)))
        | _ => .error "AttributeError: setdefault"

/-- Step 5 of `parse_moment_response`, the whole loop: `i` is the enumerate
index, `idGen` the uuid supply; an error raised in one iteration aborts the
whole call, as in Python. -/
def processMoments (idGen : Nat → String) : Nat → List Json → Except String (List Json)
  | _, [] => .ok []
  | i, m :: rest =>
    match processMoment (idGen i) m with
    | .error e => .error e
    | .ok r =>
      match processMoments idGen (i + 1) rest with
      | .error e => .error e
      | .ok others =>
        match r with
        | some m' => .ok (m' :: others)
        | none => .ok others

/-- `parse_moment_response` from `src/extraction.py`: strip fences, parse
directly or from the largest delimited candidate, normalize the root, then
validate and enrich each candidate.  `idGen` models the `uuid.uuid4()`
supply. -/
def parse_moment_response (idGen : Nat → String) (response_text : String) :
    Except String (List Json) :=
  match parsedData (strip_code_fences response_text) with
  | none => .ok []
  | some data => do
    let ms ← momentsOfRoot data
    processMoments idGen 0 ms

/-- A fixed uuid supply for concrete evaluations. -/
def defaultIdGen (i : Nat) : String := s!"id{i}"

/-! ### `src/cache_utils.py`

The cache directory is modelled as a finite map from file path to the JSON
document the file holds (`save` always writes a valid document, and the
claims about the cache do not involve corrupt files).  The md5 hexdigest of
`hashlib` is an external library and is modelled as an abstract function
parameter `hashHex`; only its determinism is relied on. -/

/-- The on-disk cache: file path ↦ stored JSON document. -/
abbrev Store := List (String × Json)

/-- `config.CACHE_ENABLED`. -/
def CACHE_ENABLED : Bool := true

/-- `config.CACHE_DIR`. -/
def CACHE_DIR : String := ".nio_cache"

/-- Python `str(x)` for a value decoded from JSON, as interpolated into the
f-string cache key (container reprs are abbreviated; only determinism of the
key is relied on). -/
def pyStrOfJson : Json → String
  | .str s => s
  | .bool true => "True"
  | .bool false => "False"
  | .null => "None"
  | .num q => if q.den = 1 then toString q.num else toString q
  | .arr _ => "[...]"
  | .obj _ => "\x7b...\x7d"

/-- `_build_cache_key`: prefer `video_<id>_<language>` when truthy metadata
carries a truthy `video_id`, else `transcript_<md5 of the text>`.  The error
models the `AttributeError` of `.get` on truthy non-dict metadata, caught by
both callers. -/
def _build_cache_key (hashHex : String → String) (transcript_text : String)
    (video_metadata : Option Json) : Except String String :=
  match video_metadata with
  | some md =>
    if md.truthy then
      match md with
      | .obj _ =>
        let vid := md.getD "video_id" (.str "")
        let lang := md.getD "language" (.str "en")
        if vid.truthy then
          let v := pyStrOfJson vid
          let l := pyStrOfJson lang
          .ok ("video_" ++ v ++ "_" ++ l)
        else .ok ("transcript_" ++ hashHex transcript_text)
      | _ => .error "AttributeError: get"
    else .ok ("transcript_" ++ hashHex transcript_text)
  | none => .ok ("transcript_" ++ hashHex transcript_text)

/-- `_get_cache_path`. -/
def _get_cache_path (cache_key : String) : String :=
  CACHE_DIR ++ "/" ++ cache_key ++ ".json"

/-- Overwrite-or-create a cache file. -/
def storeWrite : Store → String → Json → Store
  | [], p, d => [(p, d)]
  | (p', d') :: rest, p, d =>
    if p' = p then (p', d) :: rest else (p', d') :: storeWrite rest p d

/-- `get_cached_moments`: missing file, malformed structure and any raised
fault are all a miss (`None`). -/
def get_cached_moments (hashHex : String → String) (store : Store)
    (transcript_text : String) (video_metadata : Option Json) :
    Option (List Json) :=
  if ¬ CACHE_ENABLED then none
  else
    match _build_cache_key hashHex transcript_text video_metadata with
    | .error _ => none
    | .ok key =>
      match store.lookup (_get_cache_path key) with
      | none => none
      | some doc =>
        if ¬ doc.isObj ∨ ¬ doc.hasKey "moments" then none
        else
          match doc.get "moments" with
          | some (.arr ms) => some ms
          | _ => none

/-- `save_moments_to_cache`: write `{cache_key, moments_count, moments}`
wholesale under the derived key; any raised fault is a no-op. -/
def save_moments_to_cache (hashHex : String → String) (store : Store)
    (moments : List Json) (transcript_text : String)
    (video_metadata : Option Json) : Store :=
  if ¬ CACHE_ENABLED then store
  else
    match _build_cache_key hashHex transcript_text video_metadata with
    | .error _ => store
    | .ok key =>
      let doc := Json.obj
        [("cache_key", .str key),
         ("moments_count", .num (intQ moments.length)),
         ("moments", .arr moments)]
      storeWrite store (_get_cache_path key) doc

/-! ### `src/llm_client.py`

The remote chat call is modelled as an oracle `llm : String → Except String
String` from the user prompt to the model's text (the fixed system prompt is
folded into the oracle); an error models a raised API fault.  Each chunk's
uuid supply is `idGen chunkIndex`.  `_process_chunks_parallel` collects
chunk results here in submission order; `as_completed` makes the real
aggregation order nondeterministic across chunks, and no settled claim
depends on that order. -/

/-- `config.CHARS_PER_CHUNK`. -/
def CHARS_PER_CHUNK : Nat := 9000

/-- `config.MAX_MOMENTS_PER_CHUNK`. -/
def MAX_MOMENTS_PER_CHUNK : Nat := 3

/-- `config.MOMENT_SAFETY_LIMIT`. -/
def MOMENT_SAFETY_LIMIT : Nat := 5

/-- `build_prompt_for_chunk`. -/
def build_prompt_for_chunk (transcript_chunk : String)
    (chunk_index total_chunks : Nat) : String :=
  let header :=
    s!"Chunk {chunk_index} of {total_chunks}. The text below is a continuous portion of a longer talk.\n"
  let instructions :=
    s!"Find at most {MAX_MOMENTS_PER_CHUNK} of the strongest viral clip moments ONLY from this chunk.\n"
    ++ "Return them in the JSON format described in the system prompt.\n"
    ++ "Transcript chunk:\n"
  header ++ instructions ++ transcript_chunk

/-- Total length of the lines accumulated in `current`
(`sum(len(l) for l in current)`). -/
def sumLen (lines : List String) : Nat :=
  (lines.map String.length).sum

/-- The chunking loop of `extract_moments` (lines 154–164): greedily pack
lines into `current`, flushing a non-empty `current` before a line that
would push `sum of lengths + len(line) + 1` over the budget.  The flushed
groups are returned; the code joins each group with `"\n"` at flush time,
which `chunk_transcript` applies afterwards (groups are never edited after
flushing, so the joined strings agree). -/
def chunkAux (maxChars : Nat) :
    List (List String) → List String → List String → List (List String)
  | groups, current, [] => if current.isEmpty then groups else groups ++ [current]
  | groups, current, line :: rest =>
    if sumLen current + line.length + 1 > maxChars then
      if current.isEmpty then chunkAux maxChars groups (current ++ [line]) rest
      else chunkAux maxChars (groups ++ [current]) [line] rest
    else chunkAux maxChars groups (current ++ [line]) rest

/-- `"\n".join`. -/
def joinNl : List String → String
  | [] => ""
  | [x] => x
  | x :: y :: rest => x ++ "\n" ++ joinNl (y :: rest)

/-- The line groups of the chunking step. -/
def chunkGroups (maxChars : Nat) (transcript : String) : List (List String) :=
  chunkAux maxChars [] [] (pySplitlines transcript)

/-- The chunk strings of the chunking step. -/
def chunk_transcript (maxChars : Nat) (transcript : String) : List String :=
  (chunkGroups maxChars transcript).map joinNl

/-- `_process_single_chunk`: everything — the LLM call, the response parse,
the truncation — runs inside `try`, and any raised fault yields `[]` for
this chunk. -/
def _process_single_chunk (llm : String → Except String String)
    (idGenChunk : Nat → String) (chunk : String) (idx total : Nat) :
    List Json :=
  match llm (build_prompt_for_chunk chunk idx total) with
  | .error _ => []
  | .ok raw =>
    match parse_moment_response idGenChunk raw with
    | .error _ => []
    | .ok moments =>
      if moments.length > MOMENT_SAFETY_LIMIT then moments.take MOMENT_SAFETY_LIMIT
      else moments

/-- `_process_chunks_parallel`: dispatch every chunk (1-based index) and
concatenate the per-chunk results. -/
def _process_chunks_parallel (llm : String → Except String String)
    (idGen : Nat → Nat → String) (chunks : List String) : List Json :=
  (chunks.mapIdx fun i c =>
    _process_single_chunk llm (idGen (i + 1)) c (i + 1) chunks.length).flatten

/-- `extract_moments`: strip and reject an empty transcript, consult the
cache, chunk, process all chunks, and cache a non-empty aggregate.  Returns
the moment list together with the cache state after the call. -/
def extract_moments (llm : String → Except String String)
    (idGen : Nat → Nat → String) (hashHex : String → String) (store : Store)
    (transcript : String) (video_metadata : Option Json) :
    Except String (List Json × Store) :=
  let transcript := pyStrip transcript
  if transcript = "" then
    .error "RuntimeError: Transcript is empty; cannot extract moments."
  else
    match get_cached_moments hashHex store transcript video_metadata with
    | some cached => .ok (cached, store)
    | none =>
      let chunks := chunk_transcript CHARS_PER_CHUNK transcript
      let all_moments := _process_chunks_parallel llm idGen chunks
      if all_moments.isEmpty then .ok ([], store)
      else
        .ok (all_moments,
             save_moments_to_cache hashHex store all_moments transcript video_metadata)

/-! ### `src/export_utils.py` — `to_ffmpeg_json`

Timestamp arithmetic uses exact rationals for the Python floats; `%.2f`
rounding is modelled as round-half-up (the difference to the binary
round-half-even can only show in the last printed digit and no settled claim
depends on it).  The function models the clip records before
`json.dumps`. -/

/-- Worker for Python `str.split(sep)` with a one-character separator:
every separator occurrence splits, empty fields kept. -/
def pySplitCharAux (sep : Char) : List Char → List Char → List String
  | [], acc => [String.mk acc.reverse]
  | c :: rest, acc =>
    if c = sep then String.mk acc.reverse :: pySplitCharAux sep rest []
    else pySplitCharAux sep rest (c :: acc)

/-- Python `str.split(sep)` with a one-character separator. -/
def pySplitChar (sep : Char) (s : String) : List String :=
  pySplitCharAux sep s.data []

/-- Python `float(s)` on a string (decimal forms with optional exponent;
`inf`/`nan` are not modelled). -/
def pyFloatOfString (s : String) : Option ℚ :=
  let l := pyStripL s.data
  let (sign, l₁) : Int × List Char :=
    match l with
    | '-' :: rest => (-1, rest)
    | '+' :: rest => (1, rest)
    | _ => (1, l)
  let intDigits := l₁.takeWhile Char.isDigit
  let l₂ := l₁.dropWhile Char.isDigit
  let (fracDigits, l₃) : List Char × List Char :=
    match l₂ with
    | '.' :: rest => (rest.takeWhile Char.isDigit, rest.dropWhile Char.isDigit)
    | _ => ([], l₂)
  if intDigits.isEmpty ∧ fracDigits.isEmpty then none
  else
    let expPart : Option (Int × List Char) :=
      match l₃ with
      | 'e' :: rest | 'E' :: rest =>
        let (esign, r₁) : Int × List Char :=
          match rest with
          | '+' :: r => (1, r)
          | '-' :: r => (-1, r)
          | _ => (1, rest)
        let eds := r₁.takeWhile Char.isDigit
        if eds.isEmpty then none
        else some (esign * (digitsVal eds : Int), r₁.dropWhile Char.isDigit)
      | _ => some (0, l₃)
    match expPart with
    | none => none
    | some (e, l₄) =>
      if l₄.isEmpty then
        some (decScale (sign * (digitsVal (intDigits ++ fracDigits) : Int))
          (e - (fracDigits.length : Int)))
      else none

/-- Python `"\x7b:02d\x7d".format(n)`. -/
def fmt02d (n : Int) : String :=
  if n < 0 then
    let d := toString (-n)
    if d.length < 1 then "-0" ++ d else "-" ++ d
  else
    let d := toString n
    if d.length < 2 then "0" ++ d else d

/-- Python `"\x7b:05.2f\x7d".format(q)`: two decimals, zero-padded to width
five. -/
def fmt052f (q : ℚ) : String :=
  let c : Int := (qAdd (qMulNat q 100) (mkRat 1 2)).floor
  if c < 0 then
    let n := (-c).toNat
    "-" ++ toString (n / 100) ++ "." ++ (fmt02d (n % 100 : Nat)).drop 0
  else
    let n := c.toNat
    let ip := toString (n / 100)
    let ip := if ip.length < 2 then "0" ++ ip else ip
    let fp := n % 100
    let fp := if fp < 10 then "0" ++ toString fp else toString fp
    ip ++ "." ++ fp

/-- `normalize_timestamp` of `to_ffmpeg_json`: reformat `MM:SS.xx` or
`HH:MM:SS.xx` to `HH:MM:SS.xx`, returning the input unchanged when the shape
or a conversion fails. -/
def normalize_timestamp (ts : String) : String :=
  let parts := pySplitChar ':' (pyStrip ts)
  match parts with
  | [m, s] =>
    match pyIntOfString m, pyFloatOfString s with
    | some mi, some sq => fmt02d 0 ++ ":" ++ fmt02d mi ++ ":" ++ fmt052f sq
    | _, _ => ts
  | [h, m, s] =>
    match pyIntOfString h, pyIntOfString m, pyFloatOfString s with
    | some hi, some mi, some sq => fmt02d hi ++ ":" ++ fmt02d mi ++ ":" ++ fmt052f sq
    | _, _, _ => ts
  | _ => ts

/-- `timestamp_to_seconds` of `to_ffmpeg_json`: `0.0` on any failure. -/
def timestamp_to_seconds (ts : String) : ℚ :=
  let parts := pySplitChar ':' (pyStrip ts)
  match parts with
  | [m, s] =>
    match pyIntOfString m, pyFloatOfString s with
    | some mi, some sq => qAdd (intQ (mi * 60)) sq
    | _, _ => 0
  | [h, m, s] =>
    match pyIntOfString h, pyIntOfString m, pyFloatOfString s with
    | some hi, some mi, some sq => qAdd (intQ (hi * 3600 + mi * 60)) sq
    | _, _, _ => 0
  | _ => 0

/-- Python float `%` with a positive natural divisor:
`a % n = a - n * (a // n)`. -/
def pyModNat (a : ℚ) (n : Nat) : ℚ :=
  mkRat (a.num - ((qDivNat a n).floor * n) * a.den) a.den

/-- `seconds_to_timestamp` of `to_ffmpeg_json`. -/
def seconds_to_timestamp (secs : ℚ) : String :=
  let h : Int := (qDivNat secs 3600).floor
  let m : Int := (qDivNat (pyModNat secs 3600) 60).floor
  let s : ℚ := pyModNat secs 60
  fmt02d h ++ ":" ++ fmt02d m ++ ":" ++ fmt052f s

/-- A character the regex class `[0-9:.]` accepts. -/
def isTsChar (c : Char) : Bool := c.isDigit ∨ c = ':' ∨ c = '.'

/-- `re.match(r"([0-9:.]+)[\-–]([0-9:.]+)", timestamps)`: the leading run of
timestamp characters, a dash, and the following run. -/
def tsMatch (s : String) : Option (String × String) :=
  let cs := s.data
  let g1 := cs.takeWhile isTsChar
  if g1.isEmpty then none
  else
    match cs.drop g1.length with
    | sep :: rest =>
      if sep = '-' ∨ sep = '–' then
        let g2 := rest.takeWhile isTsChar
        if g2.isEmpty then none else some (String.mk g1, String.mk g2)
      else none
    | [] => none

/-- One clip record of the ffmpeg JSON export (`stop` is the JSON field
`end`, a Lean keyword). -/
structure FfmpegClip where
  index : Nat
  label : Json
  start : String
  stop : String
  deriving Repr

/-- Python `d.get(k, default)` where `d` must be a dict (`AttributeError`
otherwise). -/
def jDictGet (j : Json) (k : String) (d : Json) : Except String Json :=
  match j with
  | .obj _ => .ok (j.getD k d)
  | _ => .error "AttributeError: get"

/-- Python `v.strip()` where `v` must be a string (`AttributeError`
otherwise). -/
def pyStripJson : Json → Except String String
  | .str s => .ok (pyStrip s)
  | _ => .error "AttributeError: strip"

/-- Python `v <= 0` for a value decoded from JSON (`TypeError` on
non-numbers). -/
def pyLeZero : Json → Except String Bool
  | .num q => .ok (q ≤ 0)
  | .bool b => .ok (¬ b)
  | _ => .error "TypeError: comparison"

/-- Numeric value of a Python number (`True`/`False` count as `1`/`0`). -/
def jNumVal : Json → ℚ
  | .num q => q
  | .bool b => if b then 1 else 0
  | _ => 0

/-- The loop body of `to_ffmpeg_json` for the moment at 1-based input
position `idx`: `.ok none` models `continue` (no usable timestamps). -/
def ffmpegClipOfMoment (idx : Nat) (m : Json) : Except String (Option FfmpegClip) :=
  match jDictGet m "editor_cut_sheet" .null with
  | .error e => .error e
  | .ok csRaw =>
    let cut_sheet := if csRaw.truthy then csRaw else Json.obj []
    match jDictGet cut_sheet "clip_label" .null with
    | .error e => .error e
    | .ok lbRaw =>
      let label := if lbRaw.truthy then lbRaw else Json.str s!"CLIP_{idx}"
      match jDictGet cut_sheet "in_point" (.str "") with
      | .error e => .error e
      | .ok ipv =>
        match pyStripJson ipv with
        | .error e => .error e
        | .ok in_point =>
          let startRes : Except String (Option String) :=
            if in_point ≠ "" then .ok (some in_point)
            else
              match jDictGet m "timestamps" .null with
              | .error e => .error e
              | .ok tsRaw =>
                match pyStripJson (if tsRaw.truthy then tsRaw else .str "") with
                | .error e => .error e
                | .ok timestamps =>
                  match tsMatch timestamps with
                  | none => .ok none
                  | some (s, _) => .ok (some s)
          match startRes with
          | .error e => .error e
          | .ok none => .ok none
          | .ok (some start_raw) =>
            let start_sec := timestamp_to_seconds (normalize_timestamp start_raw)
            match jDictGet m "clip_duration_seconds" .null with
            | .error e => .error e
            | .ok clip_duration =>
              match (if ¬ clip_duration.truthy then .ok true
                  else pyLeZero clip_duration : Except String Bool) with
              | .error e => .error e
              | .ok noDur =>
                if noDur then
                  match jDictGet cut_sheet "out_point" (.str "") with
                  | .error e => .error e
                  | .ok opv =>
                    match pyStripJson opv with
                    | .error e => .error e
                    | .ok out_point =>
                      if out_point ≠ "" then
                        .ok (some ⟨idx, label, seconds_to_timestamp start_sec,
                          seconds_to_timestamp
                            (timestamp_to_seconds (normalize_timestamp out_point))⟩)
                      else
                        match jDictGet m "timestamps" .null with
                        | .error e => .error e
                        | .ok tsRaw =>
                          match pyStripJson (if tsRaw.truthy then tsRaw else .str "") with
                          | .error e => .error e
                          | .ok timestamps =>
                            match tsMatch timestamps with
                            | none => .ok none
                            | some (_, e2) =>
                              .ok (some ⟨idx, label, seconds_to_timestamp start_sec,
                                seconds_to_timestamp
                                  (timestamp_to_seconds (normalize_timestamp e2))⟩)
                else
                  .ok (some ⟨idx, label, seconds_to_timestamp start_sec,
                    seconds_to_timestamp
                      (qAdd (qAdd start_sec (jNumVal clip_duration)) (intQ 4))⟩)

/-- The loop of `to_ffmpeg_json`, from 1-based position `idx`. -/
def ffmpegClips (idx : Nat) : List Json → Except String (List FfmpegClip)
  | [] => .ok []
  | m :: rest =>
    match ffmpegClipOfMoment idx m with
    | .error e => .error e
    | .ok r =>
      match ffmpegClips (idx + 1) rest with
      | .error e => .error e
      | .ok others =>
        match r with
        | some clip => .ok (clip :: others)
        | none => .ok others

/-- `to_ffmpeg_json` from `src/export_utils.py`, up to the final
`json.dumps`. -/
def to_ffmpeg_json (moments_with_cuts : List Json) : Except String (List FfmpegClip) :=
  ffmpegClips 1 moments_with_cuts

/-! ### Association-list and `Json` accessor lemmas -/

theorem Json.lookup_setKey_self (k : String) (v : Json) :
    ∀ fs : List (String × Json), (Json.setKey fs k v).lookup k = some v
  | [] => by simp [Json.setKey, List.lookup]
  | (k', v') :: rest => by
    rcases eq_or_ne k' k with rfl | hne
    · simp [Json.setKey, List.lookup]
    · have hb : (k == k') = false := beq_eq_false_iff_ne.mpr (Ne.symm hne)
      simp only [Json.setKey, if_neg hne, List.lookup, hb]
      exact Json.lookup_setKey_self k v rest

theorem Json.lookup_setKey_ne (k k₁ : String) (v : Json) (h : k₁ ≠ k) :
    ∀ fs : List (String × Json), (Json.setKey fs k v).lookup k₁ = fs.lookup k₁
  | [] => by
    have hb : (k₁ == k) = false := beq_eq_false_iff_ne.mpr h
    simp [Json.setKey, List.lookup, hb]
  | (k', v') :: rest => by
    rcases eq_or_ne k' k with rfl | hne
    · have hb : (k₁ == k') = false := beq_eq_false_iff_ne.mpr h
      simp [Json.setKey, List.lookup, hb]
    · rcases eq_or_ne k₁ k' with rfl | hne₁
      · simp [Json.setKey, if_neg hne, List.lookup]
      · have hb : (k₁ == k') = false := beq_eq_false_iff_ne.mpr hne₁
        simp only [Json.setKey, if_neg hne, List.lookup, hb]
        exact Json.lookup_setKey_ne k k₁ v h rest

theorem Json.get_set_self (m : Json) (k : String) (v : Json) (h : m.isObj = true) :
    (m.set k v).get k = some v := by
  cases m <;> simp_all [Json.isObj, Json.set, Json.get, Json.lookup_setKey_self]

theorem Json.get_set_ne (m : Json) (k k₁ : String) (v : Json) (h : k₁ ≠ k) :
    (m.set k v).get k₁ = m.get k₁ := by
  cases m <;> simp [Json.set, Json.get, Json.lookup_setKey_ne _ _ _ h]

theorem Json.isObj_set (m : Json) (k : String) (v : Json) :
    (m.set k v).isObj = m.isObj := by
  cases m <;> rfl

theorem Json.get_setdefault_ne (m : Json) (k k₁ : String) (v : Json) (h : k₁ ≠ k) :
    (m.setdefault k v).get k₁ = m.get k₁ := by
  unfold Json.setdefault
  split
  · rfl
  · exact Json.get_set_ne m k k₁ v h

theorem Json.isObj_setdefault (m : Json) (k : String) (v : Json) :
    (m.setdefault k v).isObj = m.isObj := by
  unfold Json.setdefault
  split
  · rfl
  · exact Json.isObj_set m k v

theorem Json.get_setdefault_isSome (m : Json) (k : String) (v : Json)
    (h : m.isObj = true) : ((m.setdefault k v).get k).isSome = true := by
  unfold Json.setdefault
  split
  · simpa [Json.hasKey] using ‹m.hasKey k = true›
  · simp [Json.get_set_self m k v h]

/-! ### Claim C1 -/

/-- Claim C1 (code bug): the spec demands that `parse_moment_response`
returns a list and never raises for any input, but on the valid-JSON,
schema-violating response `{"moments": null}` the code reaches
`enumerate(None)` and raises `TypeError`, observed here as the error result
of the embedding. -/
theorem parse_moment_response_raises_on_null_moments :
    parse_moment_response defaultIdGen "\x7b\"moments\": null\x7d"
      = .error "TypeError: object is not iterable" := rfl



theorem dropWhile_append_of_all {α} (p : α → Bool) (l₁ l₂ : List α)
    (h : ∀ a ∈ l₁, p a = true) : (l₁ ++ l₂).dropWhile p = l₂.dropWhile p := by
  rw [List.dropWhile_append, List.dropWhile_eq_nil_iff.mpr h]
  rfl

theorem head?_dropWhile_false {α} (p : α → Bool) (l : List α) (c : α)
    (h : (l.dropWhile p).head? = some c) : p c = false := by
  induction l with
  | nil => simp [List.dropWhile] at h
  | cons a rest ih =>
    rw [List.dropWhile_cons] at h
    split at h
    · exact ih h
    · simp at h
      subst h
      simp_all

theorem dropWhile_of_head_false {α} (p : α → Bool) (l : List α)
    (h : ∀ c, l.head? = some c → p c = false) : l.dropWhile p = l := by
  cases l with
  | nil => rfl
  | cons a rest => simp [List.dropWhile_cons, h a rfl]

theorem pyStripL_idem (l : List Char) : pyStripL (pyStripL l) = pyStripL l := by
  unfold pyStripL stripRight
  set u := l.dropWhile pyWs with hu
  have hd : (u.dropWhile pyWs) = u := List.dropWhile_idempotent pyWs l
  -- stripRight u is a prefix of u
  have hpre : ((u.reverse.dropWhile pyWs).reverse) <+: u := by
    have := List.dropWhile_suffix (l := u.reverse) pyWs
    have h2 : (u.reverse.dropWhile pyWs).reverse <+: u.reverse.reverse :=
      List.reverse_prefix.mpr (by simpa using this)
    simpa using h2
  have hstep1 : ((u.reverse.dropWhile pyWs).reverse).dropWhile pyWs
      = (u.reverse.dropWhile pyWs).reverse := by
    apply dropWhile_of_head_false
    intro c hc
    obtain ⟨t, ht⟩ := hpre
    have : u.head? = some c := by
      rw [← ht]
      cases hsr : (u.reverse.dropWhile pyWs).reverse with
      | nil => rw [hsr] at hc; simp at hc
      | cons x xs =>
        rw [hsr] at hc
        simp at hc
        subst hc
        simp
    exact head?_dropWhile_false pyWs l c (hu ▸ this)
  rw [hstep1, List.reverse_reverse, List.dropWhile_idempotent]



theorem stripRight_append_ws (x : List Char) (c : Char) (hc : pyWs c = true) :
    stripRight (x ++ [c]) = stripRight x := by
  unfold stripRight
  simp [List.dropWhile_cons, hc]

theorem pyStripL_append_ws (l : List Char) (c : Char) (hc : pyWs c = true) :
    pyStripL (l ++ [c]) = pyStripL l := by
  unfold pyStripL
  rcases hnil : l.dropWhile pyWs with _ | ⟨a, rest⟩
  · rw [dropWhile_append_of_all pyWs l [c] (List.dropWhile_eq_nil_iff.mp hnil)]
    simp [List.dropWhile_cons, hc, stripRight]
  · rw [List.dropWhile_append, hnil]
    simp only [List.isEmpty_cons, ite_false, Bool.false_eq_true]
    exact stripRight_append_ws _ c hc

theorem pyStripL_of_ends (a b : Char) (xs : List Char)
    (ha : pyWs a = false) (hb : pyWs b = false) :
    pyStripL (a :: (xs ++ [b])) = a :: (xs ++ [b]) := by
  unfold pyStripL stripRight
  rw [List.dropWhile_cons]
  simp only [ha, Bool.false_eq_true, ite_false]
  rw [show (a :: (xs ++ [b])).reverse = b :: (xs.reverse ++ [a]) by simp]
  rw [List.dropWhile_cons]
  simp [hb]

theorem findIdx_append_self (c : Char) (l₁ l₂ : List Char) (h : c ∉ l₁) :
    findIdx c (l₁ ++ c :: l₂) = some l₁.length := by
  induction l₁ with
  | nil => simp [findIdx]
  | cons a rest ih =>
    have ha : a ≠ c := fun hac => h (hac ▸ List.mem_cons_self a rest)
    simp only [List.cons_append, findIdx, if_neg ha, List.append_eq]
    rw [ih (fun hm => h (List.mem_cons_of_mem a hm))]
    rfl

theorem extractDelim_concat (lc rc : Char) (p mid q : List Char)
    (hlc : lc ∉ p) (hrc : rc ∉ q) :
    extractDelim lc rc (p ++ (lc :: (mid ++ [rc])) ++ q)
      = some (lc :: (mid ++ [rc])) := by
  unfold extractDelim
  have h1 : (p ++ (lc :: (mid ++ [rc])) ++ q).dropWhile (· ≠ lc)
      = lc :: (mid ++ [rc] ++ q) := by
    rw [List.append_assoc, dropWhile_append_of_all _ p _
      (fun a ha => by
        simp only [ne_eq, decide_eq_true_eq]
        exact fun hal => hlc (hal ▸ ha))]
    simp [List.dropWhile_cons]
  have h4 : ((lc :: (mid ++ [rc] ++ q)).reverse).dropWhile (· ≠ rc)
      = rc :: (mid.reverse ++ [lc]) := by
    have h2 : (lc :: (mid ++ [rc] ++ q)).reverse
        = q.reverse ++ (rc :: (mid.reverse ++ [lc])) := by simp
    rw [h2, dropWhile_append_of_all _ q.reverse _
      (fun a ha => by
        simp only [ne_eq, decide_eq_true_eq]
        exact fun hal => hrc (hal ▸ (List.mem_reverse.mp ha)))]
    simp [List.dropWhile_cons]
  simp only [h1, h4]
  simp



theorem strip_code_fences_wrap (tag content : String) (htag : '\n' ∉ tag.data)
    (hcontent : startsWithL ticks (pyStripL content.data) = false) :
    strip_code_fences ("```" ++ tag ++ "\n" ++ content ++ "\n```")
      = strip_code_fences content := by
  have hdata : ("```" ++ tag ++ "\n" ++ content ++ "\n```").data
      = '`' :: (('`' :: '`' :: (tag.data ++ '\n' :: (content.data ++ ['\n', '`', '`']))) ++ ['`']) := by
    simp [String.data_append, List.append_assoc]
  have h0 : pyStripL ('`' :: (('`' :: '`' :: (tag.data ++ '\n' :: (content.data ++ ['\n', '`', '`']))) ++ ['`']))
      = '`' :: (('`' :: '`' :: (tag.data ++ '\n' :: (content.data ++ ['\n', '`', '`']))) ++ ['`']) :=
    pyStripL_of_ends '`' '`' _ (by decide) (by decide)
  have h1 : startsWithL ticks ('`' :: (('`' :: '`' :: (tag.data ++ '\n' :: (content.data ++ ['\n', '`', '`']))) ++ ['`'])) = true := by
    simp [startsWithL, ticks, List.take]
  have h2 : findIdx '\n' ('`' :: (('`' :: '`' :: (tag.data ++ '\n' :: (content.data ++ ['\n', '`', '`']))) ++ ['`']))
      = some (('`' :: '`' :: '`' :: tag.data).length) := by
    have : ('`' :: (('`' :: '`' :: (tag.data ++ '\n' :: (content.data ++ ['\n', '`', '`']))) ++ ['`']))
        = ('`' :: '`' :: '`' :: tag.data) ++ '\n' :: (content.data ++ ['\n', '`', '`'] ++ ['`']) := by
      simp [List.append_assoc]
    rw [this]
    exact findIdx_append_self '\n' _ _ (by
      intro hm
      simp at hm
      exact htag hm)
  have h3 : ('`' :: (('`' :: '`' :: (tag.data ++ '\n' :: (content.data ++ ['\n', '`', '`']))) ++ ['`'])).drop
      (('`' :: '`' :: '`' :: tag.data).length + 1)
      = content.data ++ ['\n', '`', '`'] ++ ['`'] := by
    have hsplit : ('`' :: (('`' :: '`' :: (tag.data ++ '\n' :: (content.data ++ ['\n', '`', '`']))) ++ ['`']))
        = (('`' :: '`' :: '`' :: tag.data) ++ ['\n']) ++ (content.data ++ ['\n', '`', '`'] ++ ['`']) := by
      simp [List.append_assoc]
    rw [hsplit]
    have hlen : (('`' :: '`' :: '`' :: tag.data) ++ ['\n']).length
        = ('`' :: '`' :: '`' :: tag.data).length + 1 := by simp
    rw [← hlen]
    exact List.drop_left _ _
  have h4 : endsWithL ticks (content.data ++ ['\n', '`', '`'] ++ ['`']) = true := by
    simp [endsWithL, ticks, List.take]
  have h5 : (content.data ++ ['\n', '`', '`'] ++ ['`']).take
      ((content.data ++ ['\n', '`', '`'] ++ ['`']).length - 3)
      = content.data ++ ['\n'] := by
    have hsplit : content.data ++ ['\n', '`', '`'] ++ ['`']
        = (content.data ++ ['\n']) ++ ['`', '`', '`'] := by simp
    rw [hsplit]
    have hlen : ((content.data ++ ['\n']) ++ ['`', '`', '`']).length - 3
        = (content.data ++ ['\n']).length := by simp
    rw [hlen]
    exact List.take_left _ _
  have h6 : pyStripL (content.data ++ ['\n']) = pyStripL content.data :=
    pyStripL_append_ws _ '\n' (by decide)
  unfold strip_code_fences
  simp only [hdata, h0, h1, h2, h3, h4, h5, h6, hcontent, pyStripL_idem,
    if_true, Bool.false_eq_true, if_false]



theorem code_fence_invariance (idGen : Nat → String) (tag content : String)
    (htag : '\n' ∉ tag.data)
    (hcontent : startsWithL ticks (pyStripL content.data) = false) :
    parse_moment_response idGen ("```" ++ tag ++ "\n" ++ content ++ "\n```")
      = parse_moment_response idGen content := by
  unfold parse_moment_response
  rw [strip_code_fences_wrap tag content htag hcontent]

theorem embedded_json_extraction (idGen : Nat → String) (r p o q : String)
    (mid : List Char) (d : Json)
    (hclean : strip_code_fences r = p ++ o ++ q)
    (hp : '{' ∉ p.data) (hq : '}' ∉ q.data)
    (ho : o.data = '{' :: (mid ++ ['}']))
    (hfail : Json.parse (p ++ o ++ q) = none)
    (hparse : Json.parse o = some d) :
    parse_moment_response idGen r
      = (do
          let ms ← momentsOfRoot d
          processMoments idGen 0 ms) := by
  have hdata : (p ++ o ++ q).data = p.data ++ ('{' :: (mid ++ ['}'])) ++ q.data := by
    rw [← ho]
    simp [String.data_append]
  have hcand : extractCandidate (p ++ o ++ q) = some o := by
    unfold extractCandidate
    simp only [hdata, extractDelim_concat '{' '}' p.data mid q.data hp hq]
    rw [← ho]
  unfold parse_moment_response parsedData
  simp only [hclean, hfail, hcand, hparse]



theorem code_fence_invariance_witness :
    parse_moment_response defaultIdGen ("```" ++ "json" ++ "\n" ++ "\x7b\"moments\": []\x7d" ++ "\n```")
      = parse_moment_response defaultIdGen "\x7b\"moments\": []\x7d" :=
  code_fence_invariance defaultIdGen "json" "\x7b\"moments\": []\x7d" (by decide) (by decide)

theorem embedded_json_extraction_witness :
    parse_moment_response defaultIdGen "Here: \x7b\"moments\": [\x7b\"quote\": \"a b\"\x7d]\x7d end"
      = (do
          let ms ← momentsOfRoot (.obj [("moments", .arr [.obj [("quote", .str "a b")]])])
          processMoments defaultIdGen 0 ms) :=
  embedded_json_extraction defaultIdGen
    "Here: \x7b\"moments\": [\x7b\"quote\": \"a b\"\x7d]\x7d end"
    "Here: " "\x7b\"moments\": [\x7b\"quote\": \"a b\"\x7d]\x7d" " end"
    ("\"moments\": [\x7b\"quote\": \"a b\"\x7d]").data
    (.obj [("moments", .arr [.obj [("quote", .str "a b")]])])
    rfl (by decide) (by decide) rfl rfl rfl

theorem embedded_json_extraction_counterexample :
    parse_moment_response defaultIdGen "note \x7b\"quote\": \"hi\"\x7d tail \x7d" = .ok []
  ∧ Json.parse "\x7b\"quote\": \"hi\"\x7d" = some (.obj [("quote", .str "hi")])
  ∧ "note \x7b\"quote\": \"hi\"\x7d tail \x7d" = "note " ++ "\x7b\"quote\": \"hi\"\x7d" ++ " tail \x7d"
  ∧ parse_moment_response defaultIdGen "\x7b\"quote\": \"hi\"\x7d"
      = .ok [Json.obj [("quote", .str "hi"), ("id", .str "id0"), ("timestamps", .str ""),
          ("clip_duration_seconds", .num 0), ("viral_trigger", .str ""), ("why_it_hits", .str ""),
          ("energy_tag", .str ""), ("flags", .arr []),
          ("persona_captions", .obj [("historian", .str ""), ("thomist", .str ""),
            ("ex_protestant", .str ""), ("meme_catholic", .str ""),
            ("old_world_catholic", .str ""), ("catholic", .str "")])]] :=
  ⟨rfl, rfl, rfl, rfl⟩

/-! ### Normalizer lemmas (claims C4, C5) -/

theorem specEstimate_eq_modelEstimate (m : Json) : specEstimate m = modelEstimate m := by
  unfold specEstimate modelEstimate Json.getD
  cases hg : m.get "clip_duration_seconds" with
  | none => simp [Json.truthy]
  | some v =>
    cases v with
    | null => simp [Json.truthy, pyToInt]
    | bool b => cases b <;> simp [Json.truthy, pyToInt]
    | num q =>
      by_cases hq : q = 0
      · subst hq
        simp [Json.truthy, pyToInt, ratTrunc]
        rfl
      · simp [Json.truthy, hq]
    | str s =>
      by_cases hs : s = ""
      · subst hs
        simp [Json.truthy, pyToInt, pyIntOfString, pyIntOfChars, pyStripL, stripRight]
      · simp [Json.truthy, hs]
    | arr elems =>
      cases elems <;> simp [Json.truthy, pyToInt]
    | obj fields =>
      cases fields <;> simp [Json.truthy, pyToInt]

theorem pcSetdefault_preserves (fs : List (String × Json)) (k k₀ : String)
    (h : (fs.lookup k).isSome = true) :
    ((pcSetdefault fs k₀).lookup k).isSome = true := by
  unfold pcSetdefault
  split
  · exact h
  · rcases eq_or_ne k k₀ with rfl | hne
    · rw [Json.lookup_setKey_self]
      rfl
    · rw [Json.lookup_setKey_ne _ _ _ hne]
      exact h

theorem pcFold_preserves (ks : List String) (fs : List (String × Json)) (k : String)
    (h : (fs.lookup k).isSome = true) :
    ((ks.foldl pcSetdefault fs).lookup k).isSome = true := by
  induction ks generalizing fs with
  | nil => exact h
  | cons k₀ rest ih => exact ih _ (pcSetdefault_preserves fs k k₀ h)

theorem pcFold_adds (ks : List String) (fs : List (String × Json)) (k : String)
    (h : k ∈ ks) :
    ((ks.foldl pcSetdefault fs).lookup k).isSome = true := by
  induction ks generalizing fs with
  | nil => cases h
  | cons k₀ rest ih =>
    rcases List.mem_cons.mp h with rfl | hmem
    · refine pcFold_preserves rest _ k ?_
      unfold pcSetdefault
      split
      · assumption
      · rw [Json.lookup_setKey_self]
        rfl
    · exact ih _ hmem

theorem modelEstimate_congr (m₁ m₂ : Json)
    (h : m₁.get "clip_duration_seconds" = m₂.get "clip_duration_seconds") :
    modelEstimate m₁ = modelEstimate m₂ := by
  unfold modelEstimate Json.getD
  rw [h]

theorem wordBasedDuration_eq (n : Nat) :
    wordBasedDuration n = ((n * 10 / 26 : Nat) : Int) := by
  unfold wordBasedDuration
  split
  · rfl
  · simp
    omega

/-- Inversion of one loop iteration of the normalizer: a kept moment came
from a dict candidate whose `quote` was a non-empty string; the output keeps
that quote, stores the recomputed duration, and carries all six
persona-caption keys. -/
theorem processMoment_ok_some (mid : String) (m m' : Json)
    (h : processMoment mid m = .ok (some m')) :
    ∃ s : String, s ≠ ""
      ∧ m.get "quote" = some (.str s)
      ∧ m'.get "quote" = some (.str s)
      ∧ m'.get "clip_duration_seconds"
          = some (.num (intQ (max (modelEstimate m) (wordBasedDuration (pyWords s).length))))
      ∧ ∃ pcs : List (String × Json),
          m'.get "persona_captions" = some (.obj pcs)
          ∧ ∀ k ∈ personaKeys, (pcs.lookup k).isSome = true := by
  simp only [processMoment] at h
  split at h
  · simp at h
  rename_i hobjn
  split at h
  · simp at h
  rename_i hqn
  have hobj : m.isObj = true := by
    by_contra hc
    exact hobjn (by simpa using hc)
  set m₀ := m.set "id" (.str mid) with hm₀def
  set m₁ := (if ¬(m₀.getD "timestamps" Json.null).truthy = true then
      m₀.setdefault "timestamps" (.str "") else m₀) with hm₁def
  have hq0 : m₀.get "quote" = m.get "quote" :=
    Json.get_set_ne m "id" "quote" _ (by decide)
  have hq1 : m₁.get "quote" = m.get "quote" := by
    rw [hm₁def]
    split
    · rw [Json.get_setdefault_ne _ _ _ _ (by decide), hq0]
    · exact hq0
  have hd1 : m₁.get "clip_duration_seconds" = m.get "clip_duration_seconds" := by
    have hd0 : m₀.get "clip_duration_seconds" = m.get "clip_duration_seconds" :=
      Json.get_set_ne m "id" "clip_duration_seconds" _ (by decide)
    rw [hm₁def]
    split
    · rw [Json.get_setdefault_ne _ _ _ _ (by decide), hd0]
    · exact hd0
  have hobj1 : m₁.isObj = true := by
    have hobj0 : m₀.isObj = true := by
      rw [hm₀def, Json.isObj_set]
      exact hobj
    rw [hm₁def]
    split
    · rw [Json.isObj_setdefault]
      exact hobj0
    · exact hobj0
  have hqt : (m₀.getD "quote" Json.null).truthy = true := by
    by_contra hc
    exact hqn (by simpa using hc)
  obtain ⟨v, hv⟩ : ∃ v, m.get "quote" = some v := by
    rcases hg : m.get "quote" with _ | v
    · rw [Json.getD, hq0, hg] at hqt
      simp [Json.truthy] at hqt
    · exact ⟨v, rfl⟩
  have hvt : v.truthy = true := by
    rw [Json.getD, hq0, hv] at hqt
    exact hqt
  have hq2 : m₁.getD "quote" (.str "") = v := by
    rw [Json.getD, hq1, hv]
    rfl
  rw [hq2] at h
  have hme : modelEstimate m₁ = modelEstimate m := modelEstimate_congr _ _ hd1
  rw [hme] at h
  rw [hvt] at h
  simp only [if_true] at h
  cases v with
  | null => simp at h
  | bool b => simp at h
  | num q => simp at h
  | arr elems => simp at h
  | obj fields => simp at h
  | str s =>
    simp only [] at h
    split at h
    rotate_left
    · simp at h
    rename_i pcs hpc
    have hm' : ((((((m₁.set "clip_duration_seconds"
        (Json.num (intQ (modelEstimate m ⊔ wordBasedDuration (pyWords s).length)))).setdefault
        "viral_trigger" (Json.str "")).setdefault "why_it_hits" (Json.str "")).setdefault
        "energy_tag" (Json.str "")).setdefault "flags" (Json.arr [])).setdefault
        "persona_captions" (Json.obj [])).set "persona_captions"
        (Json.obj (List.foldl pcSetdefault pcs personaKeys)) = m' := by
      simpa using h
    refine ⟨s, ?_, hv, ?_, ?_, ?_⟩
    · have : (Json.str s).truthy = true := hvt
      simpa [Json.truthy] using this
    · rw [← hm', Json.get_set_ne _ _ _ _ (by decide),
        Json.get_setdefault_ne _ _ _ _ (by decide),
        Json.get_setdefault_ne _ _ _ _ (by decide),
        Json.get_setdefault_ne _ _ _ _ (by decide),
        Json.get_setdefault_ne _ _ _ _ (by decide),
        Json.get_setdefault_ne _ _ _ _ (by decide),
        Json.get_set_ne _ _ _ _ (by decide), hq1, hv]
    · rw [← hm', Json.get_set_ne _ _ _ _ (by decide),
        Json.get_setdefault_ne _ _ _ _ (by decide),
        Json.get_setdefault_ne _ _ _ _ (by decide),
        Json.get_setdefault_ne _ _ _ _ (by decide),
        Json.get_setdefault_ne _ _ _ _ (by decide),
        Json.get_setdefault_ne _ _ _ _ (by decide),
        Json.get_set_self _ _ _ hobj1]
    · have hobj7 : ((((((m₁.set "clip_duration_seconds"
          (Json.num (intQ (modelEstimate m ⊔ wordBasedDuration (pyWords s).length)))).setdefault
          "viral_trigger" (Json.str "")).setdefault "why_it_hits" (Json.str "")).setdefault
          "energy_tag" (Json.str "")).setdefault "flags" (Json.arr [])).setdefault
          "persona_captions" (Json.obj [])).isObj = true := by
        rw [Json.isObj_setdefault, Json.isObj_setdefault, Json.isObj_setdefault,
          Json.isObj_setdefault, Json.isObj_setdefault, Json.isObj_set]
        exact hobj1
      refine ⟨List.foldl pcSetdefault pcs personaKeys, ?_, ?_⟩
      · rw [← hm', Json.get_set_self _ _ _ hobj7]
      · exact fun k hk => pcFold_adds personaKeys pcs k hk

/-- The two skip rules of the normalizer loop: non-dict candidates and
candidates with no `quote` key yield no moment (and no error). -/
theorem processMoment_skips (mid : String) (mc : Json) :
    (mc.isObj = false → processMoment mid mc = .ok none)
    ∧ (mc.get "quote" = none → processMoment mid mc = .ok none) := by
  constructor
  · intro hobj
    unfold processMoment
    rw [if_pos (by simp [hobj])]
  · intro hq
    unfold processMoment
    by_cases hobj : mc.isObj = true
    · rw [if_neg (by simp [hobj])]
      have : (mc.set "id" (.str mid)).get "quote" = none := by
        rw [Json.get_set_ne _ _ _ _ (by decide)]
        exact hq
      rw [if_pos (by simp [Json.getD, this, Json.truthy])]
    · rw [if_pos (by simpa using hobj)]

theorem wordBasedDuration_nonneg (n : Nat) : 0 ≤ wordBasedDuration n := by
  unfold wordBasedDuration
  split
  · exact Int.ofNat_nonneg _
  · exact le_refl 0

/-- The normalizer loop over a candidate list: on success the output is the
in-order image of the surviving candidates, and every emitted moment
satisfies the schema invariants. -/
theorem processMoments_ok (idGen : Nat → String) (i : Nat) (ms out : List Json)
    (h : processMoments idGen i ms = .ok out) :
    out = ms.enum.filterMap
        (fun p => ((processMoment (idGen (i + p.1)) p.2).toOption).join)
    ∧ ∀ m' ∈ out,
        (∃ s : String, s ≠ "" ∧ m'.get "quote" = some (.str s))
      ∧ (∃ pcs, m'.get "persona_captions" = some (.obj pcs)
            ∧ ∀ k ∈ personaKeys, (pcs.lookup k).isSome = true)
      ∧ (∃ n : ℕ, m'.get "clip_duration_seconds" = some (.num (intQ n))) := by
  induction ms generalizing i out with
  | nil =>
    simp only [processMoments, Except.ok.injEq] at h
    subst h
    exact ⟨by simp, by simp⟩
  | cons mc rest ih =>
    simp only [processMoments] at h
    split at h
    · simp at h
    rename_i r hr
    split at h
    · simp at h
    rename_i others hothers
    obtain ⟨ihEq, ihMem⟩ := ih (i + 1) others hothers
    have hcompose : rest.enum.filterMap
        ((fun p => ((processMoment (idGen (i + p.1)) p.2).toOption).join)
          ∘ Prod.map (· + 1) id)
        = rest.enum.filterMap
          (fun p => ((processMoment (idGen (i + 1 + p.1)) p.2).toOption).join) := by
      congr 1
      funext p
      have harith : i + (p.1 + 1) = i + 1 + p.1 := by omega
      simp [Function.comp, Prod.map, harith]
    cases r with
    | some mo =>
      have hout : out = mo :: others := by simpa using h.symm
      subst hout
      constructor
      · rw [List.enum_cons', List.filterMap_cons, List.filterMap_map, hcompose, ← ihEq]
        simp [hr, Except.toOption, Option.join]
      · intro m' hm'
        rcases List.mem_cons.mp hm' with rfl | hmem
        · obtain ⟨s, hs, _, hq', hd, pcs, hpc, hkeys⟩ :=
            processMoment_ok_some (idGen i) mc m' hr
          refine ⟨⟨s, hs, hq'⟩, ⟨pcs, hpc, hkeys⟩, ?_⟩
          refine ⟨(max (modelEstimate mc) (wordBasedDuration (pyWords s).length)).toNat, ?_⟩
          rw [hd]
          congr 2
          rw [Int.toNat_of_nonneg]
          exact le_trans (wordBasedDuration_nonneg _) (le_max_right _ _)
        · exact ihMem m' hmem
    | none =>
      have hout : out = others := by simpa using h.symm
      subst hout
      constructor
      · rw [List.enum_cons', List.filterMap_cons, List.filterMap_map, hcompose, ← ihEq]
        simp [hr, Except.toOption, Option.join]
      · exact ihMem

/-! ### Claim C4 -/

/-- Claim C4: for a normalized moment whose quote has `N` words and whose
model-provided estimate is `E` — `E` read as Python `int()` of the field,
`0` when absent, falsy or inconvertible — the stored
`clip_duration_seconds` is `max E ⌊N/2.6⌋`, overriding the model's number
(`⌊N/2.6⌋` written as `N·10/26`, which the double-precision division
realizes for every feasible word count). -/
theorem clip_duration_formula (mid : String) (m m' : Json) (q : String)
    (hq : m.get "quote" = some (.str q))
    (h : processMoment mid m = .ok (some m')) :
    m'.get "clip_duration_seconds"
      = some (.num (intQ (max (specEstimate m)
          (((pyWords q).length * 10 / 26 : Nat) : Int)))) := by
  obtain ⟨s, _, hqm, _, hd, _⟩ := processMoment_ok_some mid m m' h
  rw [hq] at hqm
  obtain rfl : q = s := by simpa using hqm
  rw [hd, specEstimate_eq_modelEstimate, wordBasedDuration_eq]

theorem clip_duration_formula_witness :
    (Json.obj [("quote", Json.str "hello world people"),
        ("clip_duration_seconds", Json.num 2),
        ("id", Json.str "w0"), ("timestamps", Json.str ""),
        ("viral_trigger", Json.str ""), ("why_it_hits", Json.str ""),
        ("energy_tag", Json.str ""), ("flags", Json.arr []),
        ("persona_captions", Json.obj [("historian", Json.str ""),
          ("thomist", Json.str ""), ("ex_protestant", Json.str ""),
          ("meme_catholic", Json.str ""), ("old_world_catholic", Json.str ""),
          ("catholic", Json.str "")])]).get "clip_duration_seconds"
      = some (.num (intQ (max
          (specEstimate (Json.obj [("quote", Json.str "hello world people"),
            ("clip_duration_seconds", Json.num 2)]))
          (((pyWords "hello world people").length * 10 / 26 : Nat) : Int)))) :=
  clip_duration_formula "w0"
    (Json.obj [("quote", Json.str "hello world people"),
      ("clip_duration_seconds", Json.num 2)])
    _ "hello world people" rfl rfl

/-! ### Claim C5 -/

/-- Claim C5: every moment emitted by the normalizer has a non-empty string
`quote`, all six persona-caption keys, and a non-negative integer
`clip_duration_seconds`; the output is the in-order image of the surviving
candidates (so output order matches input order), and non-dict candidates
and candidates with no `quote` key are excluded rather than defaulted. -/
theorem normalizer_invariants (idGen : Nat → String) (i : Nat) (ms out : List Json)
    (h : processMoments idGen i ms = .ok out) :
    (out = ms.enum.filterMap
        (fun p => ((processMoment (idGen (i + p.1)) p.2).toOption).join))
    ∧ (∀ m' ∈ out,
        (∃ s : String, s ≠ "" ∧ m'.get "quote" = some (.str s))
      ∧ (∃ pcs, m'.get "persona_captions" = some (.obj pcs)
            ∧ ∀ k ∈ personaKeys, (pcs.lookup k).isSome = true)
      ∧ (∃ n : ℕ, m'.get "clip_duration_seconds" = some (.num (intQ n))))
    ∧ (∀ mid mc, mc.isObj = false → processMoment mid mc = .ok none)
    ∧ (∀ mid mc, mc.get "quote" = none → processMoment mid mc = .ok none) :=
  ⟨(processMoments_ok idGen i ms out h).1,
   (processMoments_ok idGen i ms out h).2,
   fun mid mc => (processMoment_skips mid mc).1,
   fun mid mc => (processMoment_skips mid mc).2⟩

/-- The surviving moment of the C5 witness run. -/
def c5out : Json :=
  Json.obj [("quote", Json.str "two words"), ("id", Json.str "id1"),
    ("timestamps", Json.str ""), ("clip_duration_seconds", Json.num 0),
    ("viral_trigger", Json.str ""), ("why_it_hits", Json.str ""),
    ("energy_tag", Json.str ""), ("flags", Json.arr []),
    ("persona_captions", Json.obj [("historian", Json.str ""),
      ("thomist", Json.str ""), ("ex_protestant", Json.str ""),
      ("meme_catholic", Json.str ""), ("old_world_catholic", Json.str ""),
      ("catholic", Json.str "")])]

theorem normalizer_invariants_witness :
    (∃ s : String, s ≠ "" ∧ c5out.get "quote" = some (.str s))
  ∧ (∃ pcs, c5out.get "persona_captions" = some (.obj pcs)
        ∧ ∀ k ∈ personaKeys, (pcs.lookup k).isSome = true)
  ∧ (∃ n : ℕ, c5out.get "clip_duration_seconds" = some (.num (intQ n))) :=
  (normalizer_invariants defaultIdGen 0
      [Json.num 3, Json.obj [("quote", Json.str "two words")],
        Json.obj [("note", Json.str "skipped")]]
      [c5out] rfl).2.1 c5out (List.mem_singleton.mpr rfl)



theorem chunkAux_flatten (maxChars : Nat) :
    ∀ (lines : List String) (groups : List (List String)) (current : List String),
      (chunkAux maxChars groups current lines).flatten
        = groups.flatten ++ current ++ lines
  | [], groups, current => by
    unfold chunkAux
    split
    · simp_all
    · simp
  | line :: rest, groups, current => by
    unfold chunkAux
    split
    · split
      · rw [chunkAux_flatten maxChars rest]
        simp
      · rw [chunkAux_flatten maxChars rest]
        simp
    · rw [chunkAux_flatten maxChars rest]
      simp

/-- The flushed-group invariant: a chunk is non-empty, and a multi-line
chunk was only ever extended while `sum of line lengths + 1` stayed within
the budget. -/
def GroupOk (maxChars : Nat) (g : List String) : Prop :=
  g ≠ [] ∧ (g.length = 1 ∨ sumLen g + 1 ≤ maxChars)

theorem chunkAux_bound (maxChars : Nat) :
    ∀ (lines : List String) (groups : List (List String)) (current : List String),
      (∀ g ∈ groups, GroupOk maxChars g) →
      (current.length ≤ 1 ∨ sumLen current + 1 ≤ maxChars) →
      ∀ g ∈ chunkAux maxChars groups current lines, GroupOk maxChars g
  | [], groups, current, hg, hc => by
    unfold chunkAux
    split
    · exact hg
    · rename_i hne
      intro g hmem
      rcases List.mem_append.mp hmem with hmem | hmem
      · exact hg g hmem
      · rcases List.mem_singleton.mp hmem with rfl
        have hne' : g ≠ [] := fun h0 => hne (by simp [h0])
        refine ⟨hne', ?_⟩
        rcases hc with hc | hc
        · left
          have : g.length ≠ 0 := fun h0 => hne' (List.eq_nil_of_length_eq_zero h0)
          omega
        · right
          exact hc
  | line :: rest, groups, current, hg, hc => by
    unfold chunkAux
    split
    · split
      · rename_i hemp
        refine chunkAux_bound maxChars rest _ _ hg ?_
        left
        simp [List.isEmpty_iff.mp hemp]
      · rename_i hne
        refine chunkAux_bound maxChars rest _ _ ?_ (by left; simp)
        intro g hmem
        rcases List.mem_append.mp hmem with hmem | hmem
        · exact hg g hmem
        · rcases List.mem_singleton.mp hmem with rfl
          have hne' : g ≠ [] := fun h0 => hne (by simp [h0])
          refine ⟨hne', ?_⟩
          rcases hc with hc | hc
          · left
            have : g.length ≠ 0 := fun h0 => hne' (List.eq_nil_of_length_eq_zero h0)
            omega
          · right
            exact hc
    · rename_i hle
      refine chunkAux_bound maxChars rest _ _ hg ?_
      right
      have : sumLen (current ++ [line]) = sumLen current + line.length := by
        simp [sumLen]
      omega

theorem joinNl_length :
    ∀ g : List String, g ≠ [] → (joinNl g).length = sumLen g + g.length - 1
  | [], h => absurd rfl h
  | [x], _ => by simp [joinNl, sumLen]
  | x :: y :: rest, _ => by
    have ih := joinNl_length (y :: rest) (by simp)
    show (x ++ "\n" ++ joinNl (y :: rest)).length = _
    rw [String.length_append, String.length_append, ih,
      show ("\n" : String).length = 1 from rfl]
    simp only [sumLen, List.map_cons, List.sum_cons, List.length_cons] at ih ⊢
    omega



/-- Claim C2 test (amended). -/
theorem chunking_lossless_and_bounded (maxChars : Nat) (transcript : String) :
    (chunkGroups maxChars transcript).flatten = pySplitlines transcript
    ∧ (∀ g ∈ chunkGroups maxChars transcript,
        g ≠ [] ∧ (g.length = 1 ∨ sumLen g + 1 ≤ maxChars))
    ∧ (∀ g ∈ chunkGroups maxChars transcript,
        2 ≤ g.length → (joinNl g).length ≤ maxChars + g.length - 2) := by
  have h1 : (chunkGroups maxChars transcript).flatten = pySplitlines transcript := by
    unfold chunkGroups
    rw [chunkAux_flatten]
    simp
  have h2 := chunkAux_bound maxChars (pySplitlines transcript) [] []
    (by simp) (by left; simp)
  refine ⟨h1, fun g hg => h2 g hg, fun g hg hlen => ?_⟩
  obtain ⟨hne, hb⟩ := h2 g hg
  rcases hb with hb | hb
  · omega
  · rw [joinNl_length g hne]
    omega

theorem chunking_lossless_and_bounded_witness :
    (chunkGroups 5 "ab\ncd\nef").flatten = pySplitlines "ab\ncd\nef"
    ∧ (["ab", "cd"] ≠ [] ∧ ((["ab", "cd"] : List String).length = 1 ∨ sumLen ["ab", "cd"] + 1 ≤ 5)) :=
  ⟨(chunking_lossless_and_bounded 5 "ab\ncd\nef").1,
   (chunking_lossless_and_bounded 5 "ab\ncd\nef").2.1 ["ab", "cd"] (by decide)⟩



def lineA : String := String.mk (List.replicate 3000 'a')

def lineB : String := String.mk (List.replicate 2999 'a')

def cexTranscript : String := lineA ++ "\n" ++ lineA ++ "\n" ++ lineB

theorem pySplitlinesAux_keep_a (rest acc : List Char) :
    pySplitlinesAux ('a' :: rest) acc = pySplitlinesAux rest ('a' :: acc) := by
  simp [pySplitlinesAux, pyLineBreak]

theorem pySplitlinesAux_nl (rest acc : List Char) :
    pySplitlinesAux ('\n' :: rest) acc
      = String.mk acc.reverse :: pySplitlinesAux rest [] := by
  simp [pySplitlinesAux, pyLineBreak]

theorem pySplitlinesAux_replicate (n : Nat) (rest acc : List Char) :
    pySplitlinesAux (List.replicate n 'a' ++ rest) acc
      = pySplitlinesAux rest (List.replicate n 'a' ++ acc) := by
  induction n generalizing acc with
  | zero => simp
  | succ k ih =>
    rw [List.replicate_succ, List.cons_append, pySplitlinesAux_keep_a, ih ('a' :: acc)]
    congr 1
    rw [show ('a' :: acc : List Char) = ['a'] ++ acc from rfl, ← List.append_assoc,
      ← List.replicate_succ', List.replicate_succ, List.cons_append]

theorem cex_splitlines : pySplitlines cexTranscript = [lineA, lineA, lineB] := by
  have hdata : cexTranscript.data
      = List.replicate 3000 'a' ++ '\n'
        :: (List.replicate 3000 'a' ++ '\n' :: List.replicate 2999 'a') := by
    show List.replicate 3000 'a' ++ ['\n'] ++ List.replicate 3000 'a'
        ++ ['\n'] ++ List.replicate 2999 'a' = _
    rw [List.append_assoc, List.append_assoc, List.append_assoc,
      List.singleton_append, List.singleton_append]
  unfold pySplitlines
  rw [hdata, pySplitlinesAux_replicate, pySplitlinesAux_nl, pySplitlinesAux_replicate,
    pySplitlinesAux_nl]
  rw [show (List.replicate 2999 'a' : List Char) = List.replicate 2999 'a' ++ []
      from (List.append_nil _).symm, pySplitlinesAux_replicate]
  rw [show pySplitlinesAux [] (List.replicate 2999 'a' ++ [])
      = [String.mk (List.replicate 2999 'a' ++ []).reverse] by
    unfold pySplitlinesAux
    rw [if_neg]
    simp only [List.append_nil, List.isEmpty_iff, List.replicate_eq_nil_iff]
    omega]
  rw [List.append_nil, List.append_nil, List.reverse_replicate, List.reverse_replicate]
  rfl



theorem lineA_length : lineA.length = 3000 := by
  show (List.replicate 3000 'a').length = 3000
  rw [List.length_replicate]

theorem lineB_length : lineB.length = 2999 := by
  show (List.replicate 2999 'a').length = 2999
  rw [List.length_replicate]

set_option maxRecDepth 4000 in
theorem cex_groups : chunkGroups CHARS_PER_CHUNK cexTranscript = [[lineA, lineA, lineB]] := by
  unfold chunkGroups
  rw [cex_splitlines]
  simp only [chunkAux]
  rw [lineA_length, lineB_length]
  simp only [List.cons_append, List.nil_append, List.append_nil, sumLen, List.map_cons,
    List.map_nil, List.sum_cons, List.sum_nil, lineA_length, lineB_length, CHARS_PER_CHUNK,
    List.isEmpty_cons, List.isEmpty_nil]
  norm_num

theorem cex_join : joinNl [lineA, lineA, lineB] = cexTranscript := by
  apply String.ext
  show lineA.data ++ ("\n").data ++ (lineA.data ++ ("\n").data ++ lineB.data)
      = lineA.data ++ ("\n").data ++ lineA.data ++ ("\n").data ++ lineB.data
  simp [List.append_assoc]



theorem chunk_char_bound_counterexample :
    CHARS_PER_CHUNK = 9000
    ∧ chunk_transcript CHARS_PER_CHUNK cexTranscript = [cexTranscript]
    ∧ cexTranscript.length = 9001
    ∧ pySplitlines cexTranscript = [lineA, lineA, lineB]
    ∧ (9000 : Nat) < 9001 := by
  refine ⟨rfl, ?_, ?_, cex_splitlines, by norm_num⟩
  · unfold chunk_transcript
    rw [cex_groups]
    simp only [List.map_cons, List.map_nil]
    rw [cex_join]
  · rw [← cex_join, joinNl_length _ (by simp)]
    simp only [sumLen, List.map_cons, List.map_nil, List.sum_cons, List.sum_nil,
      lineA_length, lineB_length, List.length_cons, List.length_nil]
    norm_num



theorem storeWrite_lookup_self (p : String) (doc : Json) :
    ∀ store : Store, (storeWrite store p doc).lookup p = some doc
  | [] => by simp [storeWrite, List.lookup]
  | (p', d') :: rest => by
    rcases eq_or_ne p' p with rfl | hne
    · simp [storeWrite, List.lookup]
    · have hb : (p == p') = false := beq_eq_false_iff_ne.mpr (Ne.symm hne)
      simp only [storeWrite, if_neg hne, List.lookup, hb]
      exact storeWrite_lookup_self p doc rest

/-- Claim C3 theorem body. -/
theorem extract_moments_error_contract
    (llm : String → Except String String) (idGen : Nat → Nat → String)
    (hashHex : String → String) (store : Store) (transcript : String)
    (meta : Option Json) :
    (pyStrip transcript = "" →
      extract_moments llm idGen hashHex store transcript meta
        = .error "RuntimeError: Transcript is empty; cannot extract moments.")
    ∧ (pyStrip transcript ≠ "" →
      ∃ res, extract_moments llm idGen hashHex store transcript meta = .ok res)
    ∧ (∀ (idg : Nat → String) (chunk : String) (idx total : Nat) (e : String),
        llm (build_prompt_for_chunk chunk idx total) = .error e →
        _process_single_chunk llm idg chunk idx total = [])
    ∧ (∀ (idg : Nat → String) (chunk : String) (idx total : Nat) (raw e : String),
        llm (build_prompt_for_chunk chunk idx total) = .ok raw →
        parse_moment_response idg raw = .error e →
        _process_single_chunk llm idg chunk idx total = [])
    ∧ (pyStrip transcript ≠ "" →
        get_cached_moments hashHex store (pyStrip transcript) meta = none →
        _process_chunks_parallel llm idGen
          (chunk_transcript CHARS_PER_CHUNK (pyStrip transcript)) = [] →
        extract_moments llm idGen hashHex store transcript meta = .ok ([], store)) := by
  refine ⟨?_, ?_, ?_, ?_, ?_⟩
  · intro h
    unfold extract_moments
    rw [if_pos h]
  · intro h
    unfold extract_moments
    rw [if_neg h]
    cases hc : get_cached_moments hashHex store (pyStrip transcript) meta with
    | some cached => exact ⟨(cached, store), rfl⟩
    | none =>
      cases hemp : (_process_chunks_parallel llm idGen
          (chunk_transcript CHARS_PER_CHUNK (pyStrip transcript))).isEmpty
      · refine ⟨(_process_chunks_parallel llm idGen
            (chunk_transcript CHARS_PER_CHUNK (pyStrip transcript)),
          save_moments_to_cache hashHex store
            (_process_chunks_parallel llm idGen
              (chunk_transcript CHARS_PER_CHUNK (pyStrip transcript)))
            (pyStrip transcript) meta), ?_⟩
        simp only [hemp, Bool.false_eq_true, if_false]
      · refine ⟨([], store), ?_⟩
        simp only [hemp, if_true]
  · intro idg chunk idx total e hllm
    unfold _process_single_chunk
    rw [hllm]
  · intro idg chunk idx total raw e hllm hparse
    unfold _process_single_chunk
    simp only [hllm, hparse]
  · intro h hc hall
    unfold extract_moments
    rw [if_neg h]
    simp only [hc, hall, List.isEmpty_nil, if_true]

theorem extract_moments_error_contract_witness :
    extract_moments (fun _ => .error "api down") (fun _ _ => "x") (fun _ => "h") []
        "  \t " none
      = .error "RuntimeError: Transcript is empty; cannot extract moments."
    ∧ extract_moments (fun _ => .error "api down") (fun _ _ => "x") (fun _ => "h") []
        "hi there" none
      = .ok ([], []) :=
  ⟨(extract_moments_error_contract (fun _ => .error "api down") (fun _ _ => "x")
      (fun _ => "h") [] "  \t " none).1 rfl,
   (extract_moments_error_contract (fun _ => .error "api down") (fun _ _ => "x")
      (fun _ => "h") [] "hi there" none).2.2.2.2 (by decide) rfl rfl⟩



/-- Claim C7 theorem. -/
theorem cache_round_trip (hashHex : String → String) (store : Store)
    (moments : List Json) (transcript : String) (meta : Option Json) (k : String) :
    (_build_cache_key hashHex transcript meta = .ok k →
      get_cached_moments hashHex
        (save_moments_to_cache hashHex store moments transcript meta) transcript meta
        = some moments)
    ∧ (_build_cache_key hashHex transcript meta = .ok k →
      store.lookup (_get_cache_path k) = none →
      get_cached_moments hashHex store transcript meta = none) := by
  constructor
  · intro hk
    unfold get_cached_moments save_moments_to_cache
    simp only [CACHE_ENABLED, not_true, Bool.not_true, Bool.false_eq_true, if_false, hk]
    rw [storeWrite_lookup_self]
    simp [Json.isObj, Json.hasKey, Json.get, List.lookup]
  · intro hk hmiss
    unfold get_cached_moments
    simp only [CACHE_ENABLED, not_true, Bool.not_true, Bool.false_eq_true, if_false, hk, hmiss]

theorem cache_round_trip_witness :
    get_cached_moments (fun _ => "d41d8")
        (save_moments_to_cache (fun _ => "d41d8") [] [Json.str "m"] "t" none) "t" none
      = some [Json.str "m"]
    ∧ get_cached_moments (fun _ => "d41d8") [] "t" none = none :=
  ⟨(cache_round_trip (fun _ => "d41d8") [] [Json.str "m"] "t" none
      "transcript_d41d8").1 rfl,
   (cache_round_trip (fun _ => "d41d8") [] [Json.str "m"] "t" none
      "transcript_d41d8").2 rfl rfl⟩

/-- Claim C10 theorem. -/
theorem empty_result_not_cached
    (llm : String → Except String String) (idGen : Nat → Nat → String)
    (hashHex : String → String) (store : Store) (transcript : String)
    (meta : Option Json) :
    (pyStrip transcript ≠ "" →
      get_cached_moments hashHex store (pyStrip transcript) meta = none →
      (_process_chunks_parallel llm idGen
          (chunk_transcript CHARS_PER_CHUNK (pyStrip transcript))).isEmpty = true →
      extract_moments llm idGen hashHex store transcript meta = .ok ([], store))
    ∧ (pyStrip transcript ≠ "" →
      get_cached_moments hashHex store (pyStrip transcript) meta = none →
      (_process_chunks_parallel llm idGen
          (chunk_transcript CHARS_PER_CHUNK (pyStrip transcript))).isEmpty = false →
      extract_moments llm idGen hashHex store transcript meta
        = .ok (_process_chunks_parallel llm idGen
              (chunk_transcript CHARS_PER_CHUNK (pyStrip transcript)),
            save_moments_to_cache hashHex store
              (_process_chunks_parallel llm idGen
                (chunk_transcript CHARS_PER_CHUNK (pyStrip transcript)))
              (pyStrip transcript) meta)) := by
  constructor
  · intro h hc hemp
    unfold extract_moments
    rw [if_neg h]
    simp only [hc, hemp, if_true]
  · intro h hc hemp
    unfold extract_moments
    rw [if_neg h]
    simp only [hc, hemp, Bool.false_eq_true, if_false]

theorem empty_result_not_cached_witness :
    extract_moments (fun _ => .ok "no json here") (fun _ _ => "x") (fun _ => "h")
        [(".nio_cache/other.json", Json.null)] "some talk" none
      = .ok ([], [(".nio_cache/other.json", Json.null)]) :=
  (empty_result_not_cached (fun _ => .ok "no json here") (fun _ _ => "x") (fun _ => "h")
      [(".nio_cache/other.json", Json.null)] "some talk" none).1 (by decide) rfl rfl

end NioTranscribe

namespace NioTranscribe

/-- `d.get(k, default)` on a dict always succeeds with the looked-up value. -/
theorem jDictGet_obj (j : Json) (k : String) (d : Json) (h : j.isObj = true) :
    jDictGet j k d = .ok (j.getD k d) := by
  cases j <;> simp_all [jDictGet, Json.isObj]

/-- `v.strip()` on a string value. -/
theorem pyStripJson_str (s2 : String) : pyStripJson (Json.str s2) = .ok (pyStrip s2) := rfl

/-- `(x or "").strip()` on a string-valued `x` is `x.strip()`. -/
theorem pyStripJson_orEmpty (ts : String) :
    pyStripJson (if (Json.str ts).truthy then Json.str ts else Json.str "")
      = .ok (pyStrip ts) := by
  by_cases h : ts = ""
  · subst h; simp [Json.truthy, pyStripJson]
  · simp [Json.truthy, h, pyStripJson]

/-- The export loop emits, in input order, exactly the clips of the
non-skipped moments, each built from its 1-based input position. -/
theorem ffmpegClips_ok (i : Nat) (ms : List Json) (out : List FfmpegClip)
    (h : ffmpegClips i ms = .ok out) :
    out = ms.enum.filterMap
        (fun p => ((ffmpegClipOfMoment (i + p.1) p.2).toOption).join) := by
  induction ms generalizing i out with
  | nil =>
    simp only [ffmpegClips, Except.ok.injEq] at h
    subst h; simp
  | cons mc rest ih =>
    simp only [ffmpegClips] at h
    split at h
    · simp at h
    rename_i r hr
    split at h
    · simp at h
    rename_i others hothers
    have ihEq := ih (i + 1) others hothers
    have hcompose : rest.enum.filterMap
        ((fun p => ((ffmpegClipOfMoment (i + p.1) p.2).toOption).join)
          ∘ Prod.map (· + 1) id)
        = rest.enum.filterMap
          (fun p => ((ffmpegClipOfMoment (i + 1 + p.1) p.2).toOption).join) := by
      congr 1
      funext p
      have harith : i + (p.1 + 1) = i + 1 + p.1 := by omega
      simp [Function.comp, Prod.map, harith]
    cases r with
    | some clip =>
      have hout : out = clip :: others := by simpa using h.symm
      subst hout
      rw [List.enum_cons', List.filterMap_cons, List.filterMap_map, hcompose, ← ihEq]
      simp [hr, Except.toOption, Option.join]
    | none =>
      have hout : out = others := by simpa using h.symm
      subst hout
      rw [List.enum_cons', List.filterMap_cons, List.filterMap_map, hcompose, ← ihEq]
      simp [hr, Except.toOption, Option.join]

/-- Every emitted clip records the 1-based input position it was built from. -/
theorem ffmpegClipOfMoment_index (idx : Nat) (m : Json) (clip : FfmpegClip)
    (h : ffmpegClipOfMoment idx m = .ok (some clip)) : clip.index = idx := by
  simp only [ffmpegClipOfMoment] at h
  repeat' split at h
  all_goals cases h
  all_goals rfl


/-- The duration gate `not clip_duration or clip_duration <= 0` succeeds
(forcing the fallback path) when the duration is falsy or compares `<= 0`. -/
theorem noDur_true (dv : Json) (h : dv.truthy = false ∨ pyLeZero dv = .ok true) :
    (if ¬ dv.truthy = true then (Except.ok true : Except String Bool) else pyLeZero dv)
      = .ok true := by
  rcases h with h | h
  · simp [h]
  · simp [h, ite_self]

/-- C6: on success the ffmpeg export is the ordered list of clips of the
non-skipped moments, each indexed by its 1-based input position (hence
sequential only when nothing is skipped); a clip's start is the cut-sheet
in-point when one is present, else the raw timestamp range start; its end
is start + clip_duration_seconds + a 4-second buffer when the duration is
truthy and not <= 0, else the out-point when present, else the raw range
end — stated for all four start/duration combinations. -/
theorem ffmpeg_export_derivation :
    (∀ ms out, to_ffmpeg_json ms = .ok out →
      out = ms.enum.filterMap
        (fun p => ((ffmpegClipOfMoment (1 + p.1) p.2).toOption).join))
    ∧ (∀ idx m clip, ffmpegClipOfMoment idx m = .ok (some clip) → clip.index = idx)
    ∧ (∀ idx m cs clip ip dv,
        m.isObj = true →
        (if (m.getD "editor_cut_sheet" Json.null).truthy
            then m.getD "editor_cut_sheet" Json.null else Json.obj []) = cs →
        cs.isObj = true →
        cs.getD "in_point" (Json.str "") = Json.str ip →
        pyStrip ip ≠ "" →
        m.getD "clip_duration_seconds" Json.null = dv →
        dv.truthy = true →
        pyLeZero dv = .ok false →
        ffmpegClipOfMoment idx m = .ok (some clip) →
        clip.start
            = seconds_to_timestamp (timestamp_to_seconds (normalize_timestamp (pyStrip ip)))
        ∧ clip.stop
            = seconds_to_timestamp (qAdd (qAdd
                (timestamp_to_seconds (normalize_timestamp (pyStrip ip)))
                (jNumVal dv)) (intQ 4)))
    ∧ (∀ idx m cs clip ip ts s e dv op,
        m.isObj = true →
        (if (m.getD "editor_cut_sheet" Json.null).truthy
            then m.getD "editor_cut_sheet" Json.null else Json.obj []) = cs →
        cs.isObj = true →
        cs.getD "in_point" (Json.str "") = Json.str ip →
        pyStrip ip = "" →
        m.getD "timestamps" Json.null = Json.str ts →
        tsMatch (pyStrip ts) = some (s, e) →
        m.getD "clip_duration_seconds" Json.null = dv →
        (dv.truthy = false ∨ pyLeZero dv = .ok true) →
        cs.getD "out_point" (Json.str "") = Json.str op →
        ffmpegClipOfMoment idx m = .ok (some clip) →
        clip.start = seconds_to_timestamp (timestamp_to_seconds (normalize_timestamp s))
        ∧ (pyStrip op = "" →
            clip.stop = seconds_to_timestamp (timestamp_to_seconds (normalize_timestamp e)))
        ∧ (pyStrip op ≠ "" →
            clip.stop
              = seconds_to_timestamp (timestamp_to_seconds (normalize_timestamp (pyStrip op)))))
    ∧ (∀ idx m cs clip ip ts s e dv,
        m.isObj = true →
        (if (m.getD "editor_cut_sheet" Json.null).truthy
            then m.getD "editor_cut_sheet" Json.null else Json.obj []) = cs →
        cs.isObj = true →
        cs.getD "in_point" (Json.str "") = Json.str ip →
        pyStrip ip = "" →
        m.getD "timestamps" Json.null = Json.str ts →
        tsMatch (pyStrip ts) = some (s, e) →
        m.getD "clip_duration_seconds" Json.null = dv →
        dv.truthy = true →
        pyLeZero dv = .ok false →
        ffmpegClipOfMoment idx m = .ok (some clip) →
        clip.start = seconds_to_timestamp (timestamp_to_seconds (normalize_timestamp s))
        ∧ clip.stop
            = seconds_to_timestamp (qAdd (qAdd
                (timestamp_to_seconds (normalize_timestamp s))
                (jNumVal dv)) (intQ 4)))
    ∧ (∀ idx m cs clip ip dv op,
        m.isObj = true →
        (if (m.getD "editor_cut_sheet" Json.null).truthy
            then m.getD "editor_cut_sheet" Json.null else Json.obj []) = cs →
        cs.isObj = true →
        cs.getD "in_point" (Json.str "") = Json.str ip →
        pyStrip ip ≠ "" →
        m.getD "clip_duration_seconds" Json.null = dv →
        (dv.truthy = false ∨ pyLeZero dv = .ok true) →
        cs.getD "out_point" (Json.str "") = Json.str op →
        pyStrip op ≠ "" →
        ffmpegClipOfMoment idx m = .ok (some clip) →
        clip.start
            = seconds_to_timestamp (timestamp_to_seconds (normalize_timestamp (pyStrip ip)))
        ∧ clip.stop
            = seconds_to_timestamp (timestamp_to_seconds (normalize_timestamp (pyStrip op))))
    ∧ (∀ idx m cs clip ip dv op ts s e,
        m.isObj = true →
        (if (m.getD "editor_cut_sheet" Json.null).truthy
            then m.getD "editor_cut_sheet" Json.null else Json.obj []) = cs →
        cs.isObj = true →
        cs.getD "in_point" (Json.str "") = Json.str ip →
        pyStrip ip ≠ "" →
        m.getD "clip_duration_seconds" Json.null = dv →
        (dv.truthy = false ∨ pyLeZero dv = .ok true) →
        cs.getD "out_point" (Json.str "") = Json.str op →
        pyStrip op = "" →
        m.getD "timestamps" Json.null = Json.str ts →
        tsMatch (pyStrip ts) = some (s, e) →
        ffmpegClipOfMoment idx m = .ok (some clip) →
        clip.start
            = seconds_to_timestamp (timestamp_to_seconds (normalize_timestamp (pyStrip ip)))
        ∧ clip.stop
            = seconds_to_timestamp (timestamp_to_seconds (normalize_timestamp e))) := by
  refine ⟨?_, ?_, ?_, ?_, ?_, ?_, ?_⟩
  · intro ms out h
    simp only [to_ffmpeg_json] at h
    exact ffmpegClips_ok 1 ms out h
  · exact ffmpegClipOfMoment_index
  · intro idx m cs clip ip dv hm hcs hcso hip hipne hdv htr hle h
    simp only [ffmpegClipOfMoment, jDictGet_obj, hm, hcs, hcso, hip, hdv, pyStripJson_str,
      ne_eq, hipne, not_false_eq_true, if_true, htr, not_true, if_false, hle,
      Bool.false_eq_true] at h
    simp only [Except.ok.injEq, Option.some.injEq] at h
    subst h
    exact ⟨rfl, rfl⟩
  · intro idx m cs clip ip ts s e dv op hm hcs hcso hip hipe hts hmatch hdv hnodur hop h
    simp only [ffmpegClipOfMoment, jDictGet_obj, hm, hcs, hcso, hip, pyStripJson_str, hipe,
      ne_eq, eq_self_iff_true, not_true, if_false, hts, pyStripJson_orEmpty, hmatch, hdv,
      noDur_true dv hnodur, if_true, hop] at h
    by_cases hop2 : pyStrip op = ""
    · simp only [hop2, ne_eq, eq_self_iff_true, not_true, if_false, Except.ok.injEq,
        Option.some.injEq] at h
      subst h
      exact ⟨rfl, fun _ => rfl, fun hc => absurd hop2 hc⟩
    · simp only [ne_eq, hop2, not_false_eq_true, if_true, Except.ok.injEq,
        Option.some.injEq] at h
      subst h
      exact ⟨rfl, fun hc => absurd hc hop2, fun _ => rfl⟩
  · intro idx m cs clip ip ts s e dv hm hcs hcso hip hipe hts hmatch hdv htr hle h
    simp only [ffmpegClipOfMoment, jDictGet_obj, hm, hcs, hcso, hip, pyStripJson_str, hipe,
      ne_eq, eq_self_iff_true, not_true, if_false, hts, pyStripJson_orEmpty, hmatch, hdv,
      htr, hle, not_false_eq_true, if_true, Bool.false_eq_true] at h
    simp only [Except.ok.injEq, Option.some.injEq] at h
    subst h
    exact ⟨rfl, rfl⟩
  · intro idx m cs clip ip dv op hm hcs hcso hip hipne hdv hnodur hop hopne h
    simp only [ffmpegClipOfMoment, jDictGet_obj, hm, hcs, hcso, hip, pyStripJson_str,
      ne_eq, hipne, not_false_eq_true, if_true, hdv, noDur_true dv hnodur,
      eq_self_iff_true, hop, hopne] at h
    simp only [Except.ok.injEq, Option.some.injEq] at h
    subst h
    exact ⟨rfl, rfl⟩
  · intro idx m cs clip ip dv op ts s e hm hcs hcso hip hipne hdv hnodur hop hope hts hmatch h
    simp only [ffmpegClipOfMoment, jDictGet_obj, hm, hcs, hcso, hip, pyStripJson_str,
      ne_eq, hipne, not_false_eq_true, if_true, hdv, noDur_true dv hnodur,
      eq_self_iff_true, hop, hope, not_true, if_false, hts, pyStripJson_orEmpty,
      hmatch] at h
    simp only [Except.ok.injEq, Option.some.injEq] at h
    subst h
    exact ⟨rfl, rfl⟩


/-- C6 witness: the derivation rule evaluated on two concrete moments — one
whose cut sheet carries an in-point with a 17-second duration, and one with
no cut sheet whose start comes from the raw timestamp range (the mainline
path). -/
theorem ffmpeg_export_derivation_witness :
    ((⟨5, Json.str "CLIP_5", "00:00:04.23", "00:00:25.23"⟩ : FfmpegClip).start
        = seconds_to_timestamp (timestamp_to_seconds (normalize_timestamp (pyStrip " 00:04.23 ")))
    ∧ (⟨5, Json.str "CLIP_5", "00:00:04.23", "00:00:25.23"⟩ : FfmpegClip).stop
        = seconds_to_timestamp (qAdd (qAdd
            (timestamp_to_seconds (normalize_timestamp (pyStrip " 00:04.23 ")))
            (jNumVal (Json.num (intQ 17)))) (intQ 4)))
    ∧ ((⟨2, Json.str "CLIP_2", "00:00:04.23", "00:00:25.23"⟩ : FfmpegClip).start
        = seconds_to_timestamp (timestamp_to_seconds (normalize_timestamp "00:04.23"))
    ∧ (⟨2, Json.str "CLIP_2", "00:00:04.23", "00:00:25.23"⟩ : FfmpegClip).stop
        = seconds_to_timestamp (qAdd (qAdd
            (timestamp_to_seconds (normalize_timestamp "00:04.23"))
            (jNumVal (Json.num (intQ 17)))) (intQ 4))) :=
  ⟨ffmpeg_export_derivation.2.2.1 5
    (Json.obj [("editor_cut_sheet", Json.obj [("in_point", Json.str " 00:04.23 ")]),
      ("clip_duration_seconds", Json.num (intQ 17))])
    (Json.obj [("in_point", Json.str " 00:04.23 ")])
    ⟨5, Json.str "CLIP_5", "00:00:04.23", "00:00:25.23"⟩
    " 00:04.23 " (Json.num (intQ 17))
    rfl rfl rfl rfl (by decide) rfl (by decide) rfl rfl,
   ffmpeg_export_derivation.2.2.2.2.1 2
    (Json.obj [("timestamps", Json.str "00:04.23-00:21.90"),
      ("clip_duration_seconds", Json.num (intQ 17))])
    (Json.obj [])
    ⟨2, Json.str "CLIP_2", "00:00:04.23", "00:00:25.23"⟩
    "" "00:04.23-00:21.90" "00:04.23" "00:21.90" (Json.num (intQ 17))
    rfl rfl rfl rfl rfl rfl rfl rfl (by decide) rfl rfl⟩

/-- C6 counterexample to "index is 1-based sequential": a moment with no
usable timestamps is skipped, and the single emitted clip carries index 2,
not index 1. -/
theorem ffmpeg_export_index_counterexample :
    to_ffmpeg_json
      [Json.obj [("quote", Json.str "x")],
       Json.obj [("timestamps", Json.str "00:04.23-00:21.90"), ("quote", Json.str "y"),
         ("clip_duration_seconds", Json.num (intQ 17))]]
      = .ok [⟨2, Json.str "CLIP_2", "00:00:04.23", "00:00:25.23"⟩]
    ∧ List.map FfmpegClip.index
        [(⟨2, Json.str "CLIP_2", "00:00:04.23", "00:00:25.23"⟩ : FfmpegClip)] ≠ [1] :=
  ⟨rfl, by decide⟩

end NioTranscribe
